import Mathlib

/-!
Verification development for `src/performance/LargeMockCodebase/generate_code.py`,
the performance-test corpus generator of the DTF determinism analyzer repository.

The Python module is embedded shallowly:

* the process-wide pseudo-random source (Python's `random` module) is modelled as
  an explicit stream of natural numbers (`RState`) threaded through every
  function that draws randomness;
* `random.randint(a, b)` and `random.sample(pop, k)` are modelled by `randint`
  and `sample` below, faithful to their documented contracts (a uniform draw in
  `[a, b]`, and a `k`-element sample without replacement);
* Python f-string templates become explicit string concatenations, with `str(i)`
  rendered by `natToStr` (decimal) and `f"{i:03d}"` by `pad3`;
* `main`'s three generation loops become structural recursions over index lists,
  returning the `(file name, file content)` pairs in write order.

All definitions are executable; properties of the emitted text are stated via a
small character-level toolkit (`lineSplit`, `leadsWith`, `hasSub`) defined here.
-/

set_option maxRecDepth 100000

/-- The modelled state of Python's global random source: the stream of raw
natural-number draws still to be consumed. -/
abbrev RState := List Nat

/-- Consume one raw draw from the stream (0 when the stream is exhausted). -/
def drawNat : RState → Nat × RState
  | [] => (0, [])
  | n :: rest => (n, rest)

/-- Model of `random.randint(a, b)`: a draw in the inclusive range `[a, b]`. -/
def randint (a b : Nat) (s : RState) : Nat × RState :=
  let (n, s') := drawNat s
  (a + n % (b - a + 1), s')

/-- Model of `random.sample(pop, k)`: `k` elements drawn without replacement,
each step removing the chosen element from the remaining population.  (Python
raises when `k` exceeds the population size; the generator only ever asks for
`k ≤ 4` from the 10-element catalog, so that branch is unreachable and the
model returns a shorter list there.) -/
def sample (pop : List String) : Nat → RState → List String × RState
  | 0, s => ([], s)
  | k + 1, s =>
    if h : pop.length = 0 then ([], s)
    else
      let (n, s1) := drawNat s
      let idx : Fin pop.length := ⟨n % pop.length, Nat.mod_lt _ (Nat.pos_of_ne_zero h)⟩
      let (rest, s2) := sample (pop.eraseIdx idx.val) k s1
      (pop.get idx :: rest, s2)

/-- The fixed violation catalog of `generate_orchestrator_violations`. -/
def violationsCatalog : List String :=
  ["DateTime.Now",
   "DateTime.UtcNow",
   "Guid.NewGuid()",
   "new Random().Next()",
   "Environment.GetEnvironmentVariable(\"TEST\")",
   "Thread.Sleep(1000)",
   "Task.Delay(1000)",
   "File.ReadAllText(\"test.txt\")",
   "HttpClient.GetAsync(\"https://example.com\")",
   "Task.Run(() => \x7b\x7d)"]

/-- `generate_orchestrator_violations`: draw `k = randint(1, 4)` and sample `k`
catalog entries without replacement. -/
def generate_orchestrator_violations (s : RState) : List String × RState :=
  let (k, s1) := randint 1 4 s
  sample violationsCatalog k s1

/-- The decimal digit character for `d` (`d < 10`; `9` is the catch-all as the
function is only used with `d % 10`). -/
def digitChar (d : Nat) : Char :=
  match d with
  | 0 => '0' | 1 => '1' | 2 => '2' | 3 => '3' | 4 => '4'
  | 5 => '5' | 6 => '6' | 7 => '7' | 8 => '8' | _ => '9'

/-- Fuel-driven decimal digit list (most significant digit first). -/
def natDigitsGo : Nat → Nat → List Char
  | 0, _ => []
  | fuel + 1, n => if n < 10 then [digitChar n] else natDigitsGo fuel (n / 10) ++ [digitChar (n % 10)]

/-- The decimal digit list of `n`. -/
def natDigits (n : Nat) : List Char := natDigitsGo (n + 1) n

/-- Python's `str(i)` for a natural number: decimal rendering. -/
def natToStr (n : Nat) : String := ⟨natDigits n⟩

/-- Python's `f"{i:03d}"`: decimal rendering left-padded with zeros to width 3. -/
def pad3 (n : Nat) : String := ⟨List.replicate (3 - (natDigits n).length) '0' ++ natDigits n⟩

-- ### Basic facts about the random draws and the catalog

theorem drawNat_fst_mod (s : RState) : (randint 1 4 s).1 = 1 + (drawNat s).1 % 4 := by
  simp [randint]

theorem randint14_bounds (s : RState) :
    1 ≤ (randint 1 4 s).1 ∧ (randint 1 4 s).1 ≤ 4 := by
  simp only [randint]
  constructor
  · omega
  · have : (drawNat s).1 % 4 < 4 := Nat.mod_lt _ (by omega)
    omega

theorem violationsCatalog_length : violationsCatalog.length = 10 := by decide

theorem violationsCatalog_nodup : violationsCatalog.Nodup := by decide

theorem sample_length (pop : List String) (k : Nat) (s : RState) (h : k ≤ pop.length) :
    (sample pop k s).1.length = k := by
  induction k generalizing pop s with
  | zero => simp [sample]
  | succ k ih =>
    have hpos : pop.length ≠ 0 := by omega
    simp only [sample, hpos, dite_false]
    have hlen : (pop.eraseIdx ((drawNat s).1 % pop.length)).length = pop.length - 1 := by
      apply List.length_eraseIdx_of_lt
      exact Nat.mod_lt _ (Nat.pos_of_ne_zero hpos)
    simp only [List.length_cons]
    rw [ih _ _ (by omega)]

theorem sample_subset (pop : List String) (k : Nat) (s : RState) :
    ∀ v ∈ (sample pop k s).1, v ∈ pop := by
  induction k generalizing pop s with
  | zero => simp [sample]
  | succ k ih =>
    by_cases hpos : pop.length = 0
    · simp [sample, hpos]
    · simp only [sample, hpos, dite_false, List.mem_cons]
      rintro v (rfl | hv)
      · exact List.get_mem _ _ _
      · exact (pop.eraseIdx_subset _) (ih _ _ v hv)

theorem sample_nodup (pop : List String) (k : Nat) (s : RState) (h : pop.Nodup) :
    (sample pop k s).1.Nodup := by
  induction k generalizing pop s with
  | zero => simp [sample]
  | succ k ih =>
    by_cases hpos : pop.length = 0
    · simp [sample, hpos]
    · simp only [sample, hpos, dite_false, List.nodup_cons]
      refine ⟨fun hmem => ?_, ih _ _ (List.Nodup.sublist (List.eraseIdx_sublist _ _) h)⟩
      have hsub := sample_subset (pop.eraseIdx ((drawNat s).1 % pop.length)) k
        (drawNat s).2 _ hmem
      rw [List.mem_eraseIdx_iff_getElem] at hsub
      obtain ⟨i, hi, hne, heq⟩ := hsub
      have hidx : (drawNat s).1 % pop.length < pop.length :=
        Nat.mod_lt _ (Nat.pos_of_ne_zero hpos)
      have := (@List.Nodup.getElem_inj_iff String pop h i hi _ hidx).mp (by simpa using heq)
      exact hne this

theorem gov_length_bounds (s : RState) :
    1 ≤ (generate_orchestrator_violations s).1.length ∧
      (generate_orchestrator_violations s).1.length ≤ 4 := by
  unfold generate_orchestrator_violations
  obtain ⟨h1, h4⟩ := randint14_bounds s
  have hlen : (sample violationsCatalog (randint 1 4 s).1 (randint 1 4 s).2).1.length
      = (randint 1 4 s).1 := by
    apply sample_length
    rw [violationsCatalog_length]; omega
  constructor <;> simp only [hlen] <;> omega

theorem gov_subset (s : RState) :
    ∀ v ∈ (generate_orchestrator_violations s).1, v ∈ violationsCatalog := by
  unfold generate_orchestrator_violations
  exact sample_subset _ _ _

theorem gov_nodup (s : RState) : (generate_orchestrator_violations s).1.Nodup := by
  unfold generate_orchestrator_violations
  exact sample_nodup _ _ _ violationsCatalog_nodup

-- ### Decimal rendering: digit character set, injectivity

theorem natDigitsGo_fuel (n : Nat) : ∀ f1 f2, n < f1 → n < f2 →
    natDigitsGo f1 n = natDigitsGo f2 n := by
  induction n using Nat.strong_induction_on with
  | _ n ih =>
    intro f1 f2 h1 h2
    match f1, f2 with
    | a + 1, b + 1 =>
      by_cases h10 : n < 10
      · simp [natDigitsGo, h10]
      · have hdiv : n / 10 < n := Nat.div_lt_self (by omega) (by omega)
        simp only [natDigitsGo, h10, if_false]
        rw [ih (n / 10) hdiv a (n / 10 + 1) (by omega) (by omega),
            ih (n / 10) hdiv b (n / 10 + 1) (by omega) (by omega)]

theorem natDigits_ge10 (n : Nat) (h : ¬ n < 10) :
    natDigits n = natDigits (n / 10) ++ [digitChar (n % 10)] := by
  have hdiv : n / 10 < n := Nat.div_lt_self (by omega) (by omega)
  show natDigitsGo (n + 1) n = _
  simp only [natDigitsGo, h, if_false]
  rw [natDigitsGo_fuel (n / 10) n (n / 10 + 1) (by omega) (by omega)]
  rfl

theorem natDigits_lt10 (n : Nat) (h : n < 10) : natDigits n = [digitChar n] := by
  show natDigitsGo (n + 1) n = _
  simp [natDigitsGo, h]

theorem natDigits_ne_nil (n : Nat) : natDigits n ≠ [] := by
  by_cases h : n < 10
  · rw [natDigits_lt10 n h]; simp
  · rw [natDigits_ge10 n h]; simp

theorem digitChar_toNat (d : Nat) (h : d < 10) : (digitChar d).toNat = 48 + d := by
  interval_cases d <;> decide

theorem natDigits_mem_toNat (n : Nat) : ∀ c ∈ natDigits n, 48 ≤ c.toNat ∧ c.toNat ≤ 57 := by
  induction n using Nat.strong_induction_on with
  | _ n ih =>
    intro c hc
    by_cases h : n < 10
    · rw [natDigits_lt10 n h] at hc
      simp only [List.mem_singleton] at hc
      subst hc
      rw [digitChar_toNat n h]; omega
    · rw [natDigits_ge10 n h] at hc
      rcases List.mem_append.mp hc with h1 | h2
      · exact ih (n / 10) (Nat.div_lt_self (by omega) (by omega)) c h1
      · simp only [List.mem_singleton] at h2
        subst h2
        rw [digitChar_toNat _ (Nat.mod_lt _ (by omega))]
        have := Nat.mod_lt n (y := 10) (by omega)
        omega

theorem natDigits_mem_ne (n : Nat) (c : Char) (hc : c ∈ natDigits n)
    (ch : Char) (hch : ch.toNat < 48 ∨ 57 < ch.toNat) : c ≠ ch := by
  intro h
  obtain ⟨h1, h2⟩ := natDigits_mem_toNat n c hc
  subst h
  omega

/-- Reads a digit list back as a number; used to show `natDigits` is injective. -/
def parseDigits (l : List Char) : Nat := l.foldl (fun a c => 10 * a + (c.toNat - 48)) 0

theorem parseDigits_append_last (xs : List Char) (c : Char) :
    parseDigits (xs ++ [c]) = 10 * parseDigits xs + (c.toNat - 48) := by
  simp [parseDigits, List.foldl_append]

theorem parseDigits_natDigits (n : Nat) : parseDigits (natDigits n) = n := by
  induction n using Nat.strong_induction_on with
  | _ n ih =>
    by_cases h : n < 10
    · rw [natDigits_lt10 n h]
      show 10 * 0 + ((digitChar n).toNat - 48) = n
      rw [digitChar_toNat n h]; omega
    · rw [natDigits_ge10 n h, parseDigits_append_last,
          ih (n / 10) (Nat.div_lt_self (by omega) (by omega)),
          digitChar_toNat _ (Nat.mod_lt _ (by omega))]
      omega

theorem natDigits_injective : Function.Injective natDigits := by
  intro m n h
  have := parseDigits_natDigits m
  rw [h, parseDigits_natDigits] at this
  omega

theorem natToStr_injective : Function.Injective natToStr := by
  intro m n h
  exact natDigits_injective (congrArg String.data h)

theorem natToStr_data (n : Nat) : (natToStr n).data = natDigits n := rfl

theorem pad3_data (n : Nat) :
    (pad3 n).data = List.replicate (3 - (natDigits n).length) '0' ++ natDigits n := rfl

theorem pad3_mem_toNat (n : Nat) : ∀ c ∈ (pad3 n).data, 48 ≤ c.toNat ∧ c.toNat ≤ 57 := by
  intro c hc
  rw [pad3_data] at hc
  rcases List.mem_append.mp hc with h1 | h2
  · have := List.eq_of_mem_replicate h1
    subst this
    decide
  · exact natDigits_mem_toNat n c h2

-- ### Character-level toolkit: line splitting and substring search

/-- Split a character list at newline characters (the lines of a text, in order;
always nonempty, and text not ending in a newline keeps its last partial line). -/
def lineSplit : List Char → List (List Char)
  | [] => [[]]
  | c :: rest =>
    if c = '\n' then [] :: lineSplit rest
    else (c :: (lineSplit rest).headI) :: (lineSplit rest).tail

/-- Merge two line lists as line splitting of concatenated texts does: the last
line of the first run continues into the first line of the second. -/
def glueLines : List (List Char) → List (List Char) → List (List Char)
  | [], ys => ys
  | [x], [] => [x]
  | [x], y :: ys => (x ++ y) :: ys
  | x :: x' :: xs, ys => x :: glueLines (x' :: xs) ys

theorem lineSplit_ne_nil (l : List Char) : lineSplit l ≠ [] := by
  cases l with
  | nil => simp [lineSplit]
  | cons c rest =>
    by_cases h : c = '\n' <;> simp [lineSplit, h]

theorem lineSplit_cons_newline (rest : List Char) :
    lineSplit ('\n' :: rest) = [] :: lineSplit rest := by
  simp [lineSplit]

theorem lineSplit_cons_ne (c : Char) (rest : List Char) (h : c ≠ '\n') :
    lineSplit (c :: rest) = (c :: (lineSplit rest).headI) :: (lineSplit rest).tail := by
  simp [lineSplit, h]

theorem lineSplit_append (a b : List Char) :
    lineSplit (a ++ b) = glueLines (lineSplit a) (lineSplit b) := by
  induction a with
  | nil =>
    simp only [List.nil_append, lineSplit]
    cases hb : lineSplit b with
    | nil => exact absurd hb (lineSplit_ne_nil b)
    | cons y ys => simp [glueLines]
  | cons c a' ih =>
    by_cases h : c = '\n'
    · subst h
      rw [List.cons_append, lineSplit_cons_newline, lineSplit_cons_newline, ih]
      cases ha : lineSplit a' with
      | nil => exact absurd ha (lineSplit_ne_nil a')
      | cons l ls => simp [glueLines]
    · rw [List.cons_append, lineSplit_cons_ne _ _ h, lineSplit_cons_ne _ _ h, ih]
      cases ha : lineSplit a' with
      | nil => exact absurd ha (lineSplit_ne_nil a')
      | cons l ls =>
        cases ls with
        | nil =>
          cases hb : lineSplit b with
          | nil => exact absurd hb (lineSplit_ne_nil b)
          | cons y ys => simp [glueLines]
        | cons l' ls' => simp [glueLines]

theorem lineSplit_no_newline (l : List Char) (h : '\n' ∉ l) : lineSplit l = [l] := by
  induction l with
  | nil => rfl
  | cons c rest ih =>
    simp only [List.mem_cons, not_or] at h
    simp [lineSplit, Ne.symm h.1, ih h.2]

theorem glueLines_cons_empty (xs ys : List (List Char)) (h : xs ≠ []) :
    glueLines xs ([] :: ys) = xs ++ ys := by
  induction xs with
  | nil => exact absurd rfl h
  | cons x xs ih =>
    cases xs with
    | nil => simp [glueLines]
    | cons x' xs' => simp [glueLines, ih (by simp)]

/-- Does `pat` match at the very front of `l`? -/
def leadsWith : List Char → List Char → Bool
  | [], _ => true
  | _ :: _, [] => false
  | p :: ps, c :: cs => p == c && leadsWith ps cs

/-- Does `pat` occur (contiguously) anywhere in `l`? -/
def hasSub (pat : List Char) : List Char → Bool
  | [] => leadsWith pat []
  | c :: cs => leadsWith pat (c :: cs) || hasSub pat cs

theorem hasSub_nil (p : Char) (ps : List Char) : hasSub (p :: ps) [] = false := rfl

theorem hasSub_cons (pat : List Char) (c : Char) (cs : List Char) :
    hasSub pat (c :: cs) = (leadsWith pat (c :: cs) || hasSub pat cs) := rfl

theorem leadsWith_mem (pat l : List Char) (h : leadsWith pat l = true) :
    ∀ c ∈ pat, c ∈ l := by
  induction pat generalizing l with
  | nil => simp
  | cons p ps ih =>
    cases l with
    | nil => exact absurd h (by simp [leadsWith])
    | cons x xs =>
      simp only [leadsWith, Bool.and_eq_true, beq_iff_eq] at h
      intro c hc
      rcases List.mem_cons.mp hc with rfl | hc'
      · simp [h.1]
      · exact List.mem_cons_of_mem _ (ih xs h.2 c hc')

theorem hasSub_mem (pat l : List Char) (h : hasSub pat l = true) :
    ∀ c ∈ pat, c ∈ l := by
  induction l with
  | nil =>
    cases pat with
    | nil => simp
    | cons p ps => exact absurd h (by simp [hasSub, leadsWith])
  | cons x xs ih =>
    simp only [hasSub, Bool.or_eq_true] at h
    rcases h with h | h
    · exact leadsWith_mem _ _ h
    · intro c hc
      exact List.mem_cons_of_mem _ (ih h c hc)

theorem hasSub_char_missing (pat l : List Char) (c : Char) (hc : c ∈ pat) (hl : c ∉ l) :
    hasSub pat l = false := by
  cases h : hasSub pat l with
  | false => rfl
  | true => exact absurd (hasSub_mem pat l h c hc) hl

theorem leadsWith_append_left (pat a b : List Char) (h : leadsWith pat a = true) :
    leadsWith pat (a ++ b) = true := by
  induction pat generalizing a with
  | nil => rfl
  | cons p ps ih =>
    cases a with
    | nil => exact absurd h (by simp [leadsWith])
    | cons x xs =>
      simp only [leadsWith, Bool.and_eq_true, beq_iff_eq] at h
      simp only [List.cons_append, leadsWith, Bool.and_eq_true, beq_iff_eq]
      exact ⟨h.1, ih xs h.2⟩

theorem hasSub_append_left (pat a b : List Char) (h : hasSub pat a = true) :
    hasSub pat (a ++ b) = true := by
  induction a with
  | nil =>
    cases pat with
    | nil =>
      cases b with
      | nil => rfl
      | cons y ys => simp [hasSub, leadsWith]
    | cons p ps => exact absurd h (by simp [hasSub, leadsWith])
  | cons x xs ih =>
    simp only [hasSub, Bool.or_eq_true] at h
    simp only [List.cons_append, hasSub, Bool.or_eq_true]
    rcases h with h | h
    · exact Or.inl (leadsWith_append_left _ _ _ h)
    · exact Or.inr (ih h)

theorem hasSub_append_right (pat a b : List Char) (h : hasSub pat b = true) :
    hasSub pat (a ++ b) = true := by
  induction a with
  | nil => simpa
  | cons x xs ih =>
    simp only [List.cons_append, hasSub, Bool.or_eq_true]
    exact Or.inr ih

theorem leadsWith_append_cons (pat X : List Char) (y : Char) (Z : List Char)
    (h : leadsWith pat (X ++ y :: Z) = true) :
    leadsWith pat X = true ∨ y ∈ pat := by
  induction pat generalizing X with
  | nil => exact Or.inl rfl
  | cons p ps ih =>
    cases X with
    | nil =>
      simp only [List.nil_append, leadsWith, Bool.and_eq_true, beq_iff_eq] at h
      exact Or.inr (by simp [h.1])
    | cons x xs =>
      simp only [List.cons_append, leadsWith, Bool.and_eq_true, beq_iff_eq] at h
      rcases ih xs h.2 with h' | h'
      · exact Or.inl (by simp [leadsWith, h.1, h'])
      · exact Or.inr (List.mem_cons_of_mem _ h')

theorem hasSub_skip_left (pat D B : List Char) (hne : pat ≠ [])
    (hdisj : ∀ c ∈ D, c ∉ pat) (hB : hasSub pat B = false) :
    hasSub pat (D ++ B) = false := by
  induction D with
  | nil => simpa
  | cons d D' ih =>
    simp only [List.mem_cons, forall_eq_or_imp] at hdisj
    simp only [List.cons_append, hasSub, Bool.or_eq_false_iff]
    refine ⟨?_, ih hdisj.2⟩
    cases pat with
    | nil => exact absurd rfl hne
    | cons p ps =>
      simp only [leadsWith, Bool.and_eq_false_iff]
      by_cases hpd : p = d
      · exact absurd (by simp [hpd]) hdisj.1
      · exact Or.inl (by simpa using hpd)

theorem hasSub_skip_disjoint (pat A D B : List Char) (hne : pat ≠ []) (hD : D ≠ [])
    (hdisj : ∀ c ∈ D, c ∉ pat) (hA : hasSub pat A = false) (hB : hasSub pat B = false) :
    hasSub pat (A ++ D ++ B) = false := by
  induction A with
  | nil =>
    simpa using hasSub_skip_left pat D B hne hdisj hB
  | cons a A' ih =>
    have hA' : hasSub pat A' = false := by
      cases hs : hasSub pat A' with
      | false => rfl
      | true =>
        rw [hasSub_cons, hs] at hA
        simp at hA
    simp only [List.cons_append] at ih ⊢
    rw [hasSub_cons, ih hA']
    simp only [Bool.or_false]
    cases D with
    | nil => exact absurd rfl hD
    | cons d D' =>
      cases hlw : leadsWith pat (a :: (A' ++ (d :: D') ++ B)) with
      | false => rfl
      | true =>
        have : leadsWith pat ((a :: A') ++ d :: (D' ++ B)) = true := by
          simpa using hlw
        rcases leadsWith_append_cons pat (a :: A') d (D' ++ B) this with h' | h'
        · have : hasSub pat (a :: A') = true := by
            rw [hasSub_cons, h']
            simp
          rw [this] at hA; exact hA
        · exact absurd h' (hdisj d (by simp))

-- ### The generator's text templates and loops

/-- Python's `sep.join(parts)`. -/
def joinSep (sep : String) : List String → String
  | [] => ""
  | [x] => x
  | x :: rest => x ++ sep ++ joinSep sep rest

/-- Python's `''.join(parts)`. -/
def strJoin : List String → String
  | [] => ""
  | m :: rest => m ++ strJoin rest

/-- The list comprehension `[f"var temp{j} = {v};" for j, v in enumerate(violations)]`. -/
def assignLines (vs : List String) : List String :=
  vs.enum.map (fun jv => "var temp" ++ natToStr jv.1 ++ " = " ++ jv.2 ++ ";")

/-- `violation_code`: the assignment lines joined with `"\n        "`. -/
def violationCode (vs : List String) : String := joinSep "\n        " (assignLines vs)

/-- The per-method f-string template of `generate_orchestrator`. -/
def orchMethodText (cn : String) (i : Nat) (vc : String) : String :=
  "\n    [FunctionName(\"" ++ cn ++ "_Method" ++ natToStr i ++
  "\")]\n    public async Task<string> Method" ++ natToStr i ++
  "Async(\n        [OrchestrationTrigger] IDurableOrchestrationContext context)\n    \x7b\n        // Performance test method with violations\n        " ++
  vc ++
  "\n        \n        // Call some activities\n        await context.CallActivityAsync<string>(\"Activity" ++
  natToStr (i % 10) ++
  "\", \"data\");\n        await context.CallActivityAsync<int>(\"CalculateActivity\", i);\n        \n        return \"completed\";\n    \x7d"

/-- The per-method f-string template of `generate_dtf_orchestrator`. -/
def dtfMethodText (i : Nat) (vc : String) : String :=
  "\n    public async Task<string> Method" ++ natToStr i ++
  "Async(TaskOrchestrationContext context)\n    \x7b\n        // DTF performance test method with violations\n        " ++
  vc ++
  "\n        \n        // Call some activities\n        await context.CallActivityAsync<string>(\"DtfActivity" ++
  natToStr (i % 10) ++
  "\", \"data\");\n        await context.CallActivityAsync<int>(\"DtfCalculateActivity\", i);\n        \n        return \"dtf completed\";\n    \x7d"

/-- The per-method f-string template of `generate_activity`. -/
def activityMethodText (cn : String) (i : Nat) : String :=
  "\n    [FunctionName(\"" ++ cn ++ "_Activity" ++ natToStr i ++
  "\")]\n    public async Task<string> Activity" ++ natToStr i ++
  "Async([ActivityTrigger] string input, ILogger logger)\n    \x7b\n        logger.LogInformation($\"Processing \x7binput\x7d in activity " ++
  natToStr i ++
  "\");\n        \n        // Simulate work\n        await Task.Delay(Random.Shared.Next(10, 100));\n        \n        // Activities can use non-deterministic operations\n        var timestamp = DateTime.Now;\n        var guid = Guid.NewGuid();\n        var env = Environment.GetEnvironmentVariable(\"PATH\");\n        \n        return $\"Activity" ++
  natToStr i ++
  " result: \x7binput\x7d-\x7btimestamp\x7d-\x7bguid\x7d\";\n    \x7d"

/-- The class-level f-string template of `generate_orchestrator`. -/
def azureOrchClassText (ns cn body : String) : String :=
  "\nusing System;\nusing System.IO;\nusing System.Net.Http;\nusing System.Threading;\nusing System.Threading.Tasks;\nusing Microsoft.Azure.WebJobs;\nusing Microsoft.Azure.WebJobs.Extensions.DurableTask;\nusing Microsoft.Extensions.Logging;\n\nnamespace " ++
  ns ++ "\n\x7b\n    public class " ++ cn ++ "\n    \x7b" ++ body ++ "\n    \x7d\n\x7d\n"

/-- The class-level f-string template of `generate_activity`. -/
def activityClassText (ns cn body : String) : String :=
  "\nusing System;\nusing System.Threading.Tasks;\nusing Microsoft.Azure.WebJobs;\nusing Microsoft.Azure.WebJobs.Extensions.DurableTask;\nusing Microsoft.Extensions.Logging;\n\nnamespace " ++
  ns ++ "\n\x7b\n    public class " ++ cn ++ "\n    \x7b" ++ body ++ "\n    \x7d\n\x7d\n"

/-- The class-level f-string template of `generate_dtf_orchestrator`. -/
def dtfClassText (ns cn body : String) : String :=
  "\nusing System;\nusing System.IO;\nusing System.Net.Http;\nusing System.Threading;\nusing System.Threading.Tasks;\nusing Microsoft.DurableTask;\n\nnamespace " ++
  ns ++ "\n\x7b\n    public class " ++ cn ++ "\n    \x7b" ++ body ++ "\n    \x7d\n\x7d\n"

/-- The method loop of `generate_orchestrator`: for each index, sample violations
and render the method; the sampled list is kept next to the rendered text. -/
def orchMethods (cn : String) : List Nat → RState → List (List String × String) × RState
  | [], s => ([], s)
  | i :: is, s =>
    let (vs, s1) := generate_orchestrator_violations s
    let (rest, s2) := orchMethods cn is s1
    ((vs, orchMethodText cn i (violationCode vs)) :: rest, s2)

/-- `generate_orchestrator(namespace, class_name, method_count)`. -/
def generate_orchestrator (ns cn : String) (mc : Nat) (s : RState) : String × RState :=
  let (ps, s') := orchMethods cn (List.range mc) s
  (azureOrchClassText ns cn (strJoin (ps.map Prod.snd)), s')

/-- The method loop of `generate_dtf_orchestrator` (its template does not use the
class name). -/
def dtfMethods : List Nat → RState → List (List String × String) × RState
  | [], s => ([], s)
  | i :: is, s =>
    let (vs, s1) := generate_orchestrator_violations s
    let (rest, s2) := dtfMethods is s1
    ((vs, dtfMethodText i (violationCode vs)) :: rest, s2)

/-- `generate_dtf_orchestrator(namespace, class_name, method_count)`. -/
def generate_dtf_orchestrator (ns cn : String) (mc : Nat) (s : RState) : String × RState :=
  let (ps, s') := dtfMethods (List.range mc) s
  (dtfClassText ns cn (strJoin (ps.map Prod.snd)), s')

/-- `generate_activity(namespace, class_name, method_count)`: draws no randomness,
so it is a pure function of its arguments. -/
def generate_activity (ns cn : String) (mc : Nat) : String :=
  activityClassText ns cn (strJoin ((List.range mc).map (activityMethodText cn)))

-- ### `main`: the three generation loops, the summary and the stdout report

def azureOrchFileName (i : Nat) : String := "Azure_Orchestrator_" ++ pad3 i ++ ".cs"

def azureActFileName (i : Nat) : String := "Azure_Activity_" ++ pad3 i ++ ".cs"

def dtfFileName (i : Nat) : String := "DTF_Orchestrator_" ++ pad3 i ++ ".cs"

def azureOrchNamespace (i : Nat) : String := "Performance.Azure.Batch" ++ natToStr (i / 10)

def azureOrchClassName (i : Nat) : String := "TestOrchestrator" ++ pad3 i

def azureActNamespace (i : Nat) : String := "Performance.Azure.Activities.Batch" ++ natToStr (i / 10)

def azureActClassName (i : Nat) : String := "TestActivity" ++ pad3 i

def dtfNamespace (i : Nat) : String := "Performance.DTF.Batch" ++ natToStr (i / 10)

def dtfClassName (i : Nat) : String := "DtfOrchestrator" ++ pad3 i

/-- The first `main` loop: 50 Azure orchestrator classes, in index order. -/
def azureOrchFiles : List Nat → RState → List (String × String) × RState
  | [], s => ([], s)
  | i :: is, s =>
    let (content, s1) := generate_orchestrator (azureOrchNamespace i) (azureOrchClassName i) 8 s
    let (rest, s2) := azureOrchFiles is s1
    ((azureOrchFileName i, content) :: rest, s2)

/-- The second `main` loop: 30 Azure activity classes (no randomness drawn). -/
def azureActFiles (is : List Nat) : List (String × String) :=
  is.map (fun i =>
    (azureActFileName i, generate_activity (azureActNamespace i) (azureActClassName i) 5))

/-- The third `main` loop: 25 DTF orchestrator classes, in index order. -/
def dtfFiles : List Nat → RState → List (String × String) × RState
  | [], s => ([], s)
  | i :: is, s =>
    let (content, s1) := generate_dtf_orchestrator (dtfNamespace i) (dtfClassName i) 6 s
    let (rest, s2) := dtfFiles is s1
    ((dtfFileName i, content) :: rest, s2)

/-- `total_files = 50 + 30 + 25` as computed in `main`. -/
def total_files : Nat := 50 + 30 + 25

/-- `total_methods = (50 * 8) + (30 * 5) + (25 * 6)` as computed in `main`. -/
def total_methods : Nat := 50 * 8 + 30 * 5 + 25 * 6

/-- The summary f-string of `main` (only `total_files` and `total_methods` are
interpolated; every other figure, including `~2200-2750`, is literal text). -/
def summaryTemplate (tf tm : Nat) : String :=
  "\n// PERFORMANCE TEST CODEBASE SUMMARY\n// Generated " ++ natToStr tf ++
  " files with " ++ natToStr tm ++
  " total methods\n//\n// Azure Functions Orchestrators: 50 classes × 8 methods = 400 orchestrator methods\n// Azure Functions Activities: 30 classes × 5 methods = 150 activity methods  \n// DTF Core Orchestrators: 25 classes × 6 methods = 150 orchestrator methods\n//\n// Total orchestrator methods: 550 (should trigger analyzer rules)\n// Total activity methods: 150 (should not trigger analyzer rules)\n// Expected analyzer violations: ~2200-2750 (4-5 violations per orchestrator method)\n"

/-- Everything `main` writes or prints, in order. -/
structure RunOutput where
  files : List (String × String)
  summaryName : String
  summaryContent : String
  stdout : List String
deriving DecidableEq

/-- The whole of `main`, for an initial random stream `s`: the first loop runs on
`s`, the activity loop draws nothing, and the DTF loop continues from the state
the first loop left behind. -/
def mainOutput (s : RState) : RunOutput × RState :=
  ({ files := (azureOrchFiles (List.range 50) s).1 ++ azureActFiles (List.range 30)
        ++ (dtfFiles (List.range 25) (azureOrchFiles (List.range 50) s).2).1,
     summaryName := "CodebaseSummary.txt",
     summaryContent := summaryTemplate total_files total_methods,
     stdout := ["Generated " ++ natToStr total_files ++ " files with " ++ natToStr total_methods ++
                  " total methods",
                "Expected ~2200-2750 analyzer violations to process"] },
   (dtfFiles (List.range 25) (azureOrchFiles (List.range 50) s).2).2)

/-- `os.path.join(dir, name)` for the generator's simple relative names. -/
def pathJoin (dir name : String) : String := dir ++ "/" ++ name

/-- The full paths `main` writes to, for output directory `dir`: one per class
file plus the summary, all inside `dir`. -/
def writtenPaths (dir : String) (s : RState) : List String :=
  ((mainOutput s).1.files.map Prod.fst ++ [(mainOutput s).1.summaryName]).map (pathJoin dir)

/-- Modelled from the platform: .NET `Random.Shared.Next(lo, hi)` in the emitted
C# returns a value in `[lo, hi)`; `r` stands for the runtime draw. -/
def csharpNext (lo hi r : Nat) : Nat := lo + r % (hi - lo)

-- ### Peeling lines off concatenated texts

theorem lineSplit_break (R Y : List Char) :
    lineSplit (R ++ '\n' :: Y) = lineSplit R ++ lineSplit Y := by
  rw [lineSplit_append, lineSplit_cons_newline,
    glueLines_cons_empty _ _ (lineSplit_ne_nil R)]

theorem natToStr_not_mem (n : Nat) (ch : Char) (h : ch.toNat < 48 ∨ 57 < ch.toNat) :
    ch ∉ (natToStr n).data := by
  intro hmem
  exact natDigits_mem_ne n ch hmem ch h rfl

theorem pad3_not_mem (n : Nat) (ch : Char) (h : ch.toNat < 48 ∨ 57 < ch.toNat) :
    ch ∉ (pad3 n).data := by
  intro hmem
  obtain ⟨h1, h2⟩ := pad3_mem_toNat n ch hmem
  omega

theorem catalog_no_newline : ∀ v ∈ violationsCatalog, '\n' ∉ v.data := by decide

theorem catalog_no_lt : ∀ v ∈ violationsCatalog, '<' ∉ v.data := by decide

-- ### The assignment-line list, indexed form

/-- Index-explicit form of `assignLines`, used for induction. -/
def assignLinesFrom (j : Nat) : List String → List String
  | [] => []
  | v :: vs => ("var temp" ++ natToStr j ++ " = " ++ v ++ ";") :: assignLinesFrom (j + 1) vs

theorem enumFrom_map_assign (vs : List String) : ∀ j,
    (List.enumFrom j vs).map (fun jv => "var temp" ++ natToStr jv.1 ++ " = " ++ jv.2 ++ ";")
      = assignLinesFrom j vs := by
  induction vs with
  | nil => intro j; rfl
  | cons v vs ih =>
    intro j
    simp only [List.enumFrom, List.map_cons, assignLinesFrom]
    rw [ih (j + 1)]

theorem assignLines_eq (vs : List String) : assignLines vs = assignLinesFrom 0 vs := by
  unfold assignLines
  exact enumFrom_map_assign vs 0

theorem assignLinesFrom_length (vs : List String) : ∀ j, (assignLinesFrom j vs).length = vs.length := by
  induction vs with
  | nil => intro j; rfl
  | cons v vs ih => intro j; simp [assignLinesFrom, ih]

theorem assignLines_length (vs : List String) : (assignLines vs).length = vs.length := by
  rw [assignLines_eq]; exact assignLinesFrom_length vs 0

theorem assignLinesFrom_shape (vs : List String) : ∀ j, ∀ a ∈ assignLinesFrom j vs,
    ∃ m v, j ≤ m ∧ m < j + vs.length ∧ v ∈ vs ∧
      a = "var temp" ++ natToStr m ++ " = " ++ v ++ ";" := by
  induction vs with
  | nil => intro j a ha; exact absurd ha (by simp [assignLinesFrom])
  | cons v vs ih =>
    intro j a ha
    rcases List.mem_cons.mp ha with rfl | ha'
    · exact ⟨j, v, le_refl j, by simp, by simp, rfl⟩
    · obtain ⟨m, w, hm1, hm2, hw, he⟩ := ih (j + 1) a ha'
      exact ⟨m, w, by omega, by simp only [List.length_cons]; omega, List.mem_cons_of_mem _ hw, he⟩

theorem assignLines_shape (vs : List String) : ∀ a ∈ assignLines vs,
    ∃ m v, m < vs.length ∧ v ∈ vs ∧ a = "var temp" ++ natToStr m ++ " = " ++ v ++ ";" := by
  rw [assignLines_eq]
  intro a ha
  obtain ⟨m, v, _, hm2, hv, he⟩ := assignLinesFrom_shape vs 0 a ha
  exact ⟨m, v, by omega, hv, he⟩

theorem assignLinesFrom_getD (vs : List String) : ∀ j k, k < vs.length →
    (assignLinesFrom j vs).getD k "" =
      "var temp" ++ natToStr (j + k) ++ " = " ++ vs.getD k "" ++ ";" := by
  induction vs with
  | nil => intro j k hk; simp at hk
  | cons v vs ih =>
    intro j k hk
    cases k with
    | zero => simp [assignLinesFrom]
    | succ k =>
      simp only [assignLinesFrom, List.getD_cons_succ]
      rw [ih (j + 1) k (by simpa using hk)]
      have : j + 1 + k = j + (k + 1) := by omega
      rw [this]

theorem assignLines_getD (vs : List String) (k : Nat) (hk : k < vs.length) :
    (assignLines vs).getD k "" = "var temp" ++ natToStr k ++ " = " ++ vs.getD k "" ++ ";" := by
  rw [assignLines_eq, assignLinesFrom_getD vs 0 k hk]
  simp

theorem assignLines_no_newline (vs : List String) (hvs : ∀ v ∈ vs, '\n' ∉ v.data) :
    ∀ a ∈ assignLines vs, '\n' ∉ a.data := by
  intro a ha
  obtain ⟨m, v, _, hv, he⟩ := assignLines_shape vs a ha
  subst he
  intro hmem
  simp only [String.data_append, List.append_assoc, List.mem_append] at hmem
  rcases hmem with h | h | h | h | h
  · exact absurd h (by decide)
  · exact natToStr_not_mem m '\n' (by decide) h
  · exact absurd h (by decide)
  · exact hvs v hv h
  · exact absurd h (by decide)

-- ### Lines of the violation region

theorem region_lines (ls : List String) (hne : ls ≠ []) (hnl : ∀ a ∈ ls, '\n' ∉ a.data) :
    lineSplit (("        " ++ joinSep "\n        " ls).data) =
      ls.map (fun a => "        ".data ++ a.data) := by
  induction ls with
  | nil => exact absurd rfl hne
  | cons a ls ih =>
    cases ls with
    | nil =>
      have hno : '\n' ∉ ("        " ++ joinSep "\n        " [a]).data := by
        simp only [joinSep, String.data_append, List.mem_append, not_or]
        exact ⟨by decide, hnl a (by simp)⟩
      rw [lineSplit_no_newline _ hno]
      simp [joinSep, String.data_append]
    | cons b rest =>
      have e : ("        " ++ joinSep "\n        " (a :: b :: rest)).data
          = ("        ".data ++ a.data) ++
              '\n' :: ("        " ++ joinSep "\n        " (b :: rest)).data := by
        simp [joinSep, String.data_append]
      rw [e, lineSplit_break,
        lineSplit_no_newline _ (by
          simp only [List.mem_append, not_or]
          exact ⟨by decide, hnl a (by simp)⟩),
        ih (by simp) (fun x hx => hnl x (List.mem_cons_of_mem _ hx))]
      simp

-- ### Symbolic line decompositions of the three method templates

/-- The lines of one rendered Azure orchestrator method. -/
def orchMethodLines (cn : String) (i : Nat) (vs : List String) : List (List Char) :=
  [[],
   ("    [FunctionName(\"").data ++ cn.data ++ ("_Method").data ++ (natToStr i).data ++ ("\")]").data,
   ("    public async Task<string> Method").data ++ (natToStr i).data ++ ("Async(").data,
   ("        [OrchestrationTrigger] IDurableOrchestrationContext context)").data,
   ("    \x7b").data,
   ("        // Performance test method with violations").data]
  ++ (assignLines vs).map (fun a => ("        ").data ++ a.data)
  ++ [("        ").data,
      ("        // Call some activities").data,
      ("        await context.CallActivityAsync<string>(\"Activity").data ++ (natToStr (i % 10)).data ++ ("\", \"data\");").data,
      ("        await context.CallActivityAsync<int>(\"CalculateActivity\", i);").data,
      ("        ").data,
      ("        return \"completed\";").data,
      ("    \x7d").data]

/-- The lines of one rendered DTF orchestrator method. -/
def dtfMethodLines (i : Nat) (vs : List String) : List (List Char) :=
  [[],
   ("    public async Task<string> Method").data ++ (natToStr i).data ++ ("Async(TaskOrchestrationContext context)").data,
   ("    \x7b").data,
   ("        // DTF performance test method with violations").data]
  ++ (assignLines vs).map (fun a => ("        ").data ++ a.data)
  ++ [("        ").data,
      ("        // Call some activities").data,
      ("        await context.CallActivityAsync<string>(\"DtfActivity").data ++ (natToStr (i % 10)).data ++ ("\", \"data\");").data,
      ("        await context.CallActivityAsync<int>(\"DtfCalculateActivity\", i);").data,
      ("        ").data,
      ("        return \"dtf completed\";").data,
      ("    \x7d").data]

/-- The lines of one rendered activity method. -/
def activityMethodLines (cn : String) (i : Nat) : List (List Char) :=
  [[],
   ("    [FunctionName(\"").data ++ cn.data ++ ("_Activity").data ++ (natToStr i).data ++ ("\")]").data,
   ("    public async Task<string> Activity").data ++ (natToStr i).data ++ ("Async([ActivityTrigger] string input, ILogger logger)").data,
   ("    \x7b").data,
   ("        logger.LogInformation($\"Processing \x7binput\x7d in activity ").data ++ (natToStr i).data ++ ("\");").data,
   ("        ").data,
   ("        // Simulate work").data,
   ("        await Task.Delay(Random.Shared.Next(10, 100));").data,
   ("        ").data,
   ("        // Activities can use non-deterministic operations").data,
   ("        var timestamp = DateTime.Now;").data,
   ("        var guid = Guid.NewGuid();").data,
   ("        var env = Environment.GetEnvironmentVariable(\"PATH\");").data,
   ("        ").data,
   ("        return $\"Activity").data ++ (natToStr i).data ++ (" result: \x7binput\x7d-\x7btimestamp\x7d-\x7bguid\x7d\";").data,
   ("    \x7d").data]

theorem orchMethodText_lines (cn : String) (i : Nat) (vs : List String)
    (hcn : '\n' ∉ cn.data) (hvs : ∀ v ∈ vs, '\n' ∉ v.data) (hne : vs ≠ []) :
    lineSplit (orchMethodText cn i (violationCode vs)).data = orchMethodLines cn i vs := by
  have hdata : (orchMethodText cn i (violationCode vs)).data =
      '\n' :: ((("    [FunctionName(\"").data ++ cn.data ++ ("_Method").data ++ (natToStr i).data ++ ("\")]").data) ++
      '\n' :: ((("    public async Task<string> Method").data ++ (natToStr i).data ++ ("Async(").data) ++
      '\n' :: (("        [OrchestrationTrigger] IDurableOrchestrationContext context)").data ++
      '\n' :: (("    \x7b").data ++
      '\n' :: (("        // Performance test method with violations").data ++
      '\n' :: ((("        " ++ violationCode vs).data) ++
      '\n' :: (("        ").data ++
      '\n' :: (("        // Call some activities").data ++
      '\n' :: ((("        await context.CallActivityAsync<string>(\"Activity").data ++ (natToStr (i % 10)).data ++ ("\", \"data\");").data) ++
      '\n' :: (("        await context.CallActivityAsync<int>(\"CalculateActivity\", i);").data ++
      '\n' :: (("        ").data ++
      '\n' :: (("        return \"completed\";").data ++
      '\n' :: ("    \x7d").data)))))))))))) := by
    simp [orchMethodText, String.data_append]
  have hreg : lineSplit (("        " ++ violationCode vs).data) =
      (assignLines vs).map (fun a => ("        ").data ++ a.data) := by
    unfold violationCode
    apply region_lines
    · intro hq
      have hl := assignLines_length vs
      rw [hq] at hl
      exact hne (List.length_eq_zero.mp hl.symm)
    · exact assignLines_no_newline vs hvs
  have h1 : '\n' ∉ (("    [FunctionName(\"").data ++ cn.data ++ ("_Method").data ++ (natToStr i).data ++ ("\")]").data) := by
    intro hmem
    simp only [List.append_assoc, List.mem_append] at hmem
    rcases hmem with h | h | h | h | h
    · exact absurd h (by decide)
    · exact hcn h
    · exact absurd h (by decide)
    · exact natToStr_not_mem i '\n' (by decide) h
    · exact absurd h (by decide)
  have h2 : '\n' ∉ (("    public async Task<string> Method").data ++ (natToStr i).data ++ ("Async(").data) := by
    intro hmem
    simp only [List.append_assoc, List.mem_append] at hmem
    rcases hmem with h | h | h
    · exact absurd h (by decide)
    · exact natToStr_not_mem i '\n' (by decide) h
    · exact absurd h (by decide)
  have h8 : '\n' ∉ (("        await context.CallActivityAsync<string>(\"Activity").data ++ (natToStr (i % 10)).data ++ ("\", \"data\");").data) := by
    intro hmem
    simp only [List.append_assoc, List.mem_append] at hmem
    rcases hmem with h | h | h
    · exact absurd h (by decide)
    · exact natToStr_not_mem (i % 10) '\n' (by decide) h
    · exact absurd h (by decide)
  rw [hdata, lineSplit_cons_newline, lineSplit_break, lineSplit_break, lineSplit_break,
    lineSplit_break, lineSplit_break, lineSplit_break, lineSplit_break, lineSplit_break,
    lineSplit_break, lineSplit_break, lineSplit_break, lineSplit_break]
  rw [lineSplit_no_newline _ h1, lineSplit_no_newline _ h2, lineSplit_no_newline _ h8, hreg]
  rw [lineSplit_no_newline _ (show '\n' ∉ ("        [OrchestrationTrigger] IDurableOrchestrationContext context)").data by decide),
    lineSplit_no_newline _ (show '\n' ∉ ("    \x7b").data by decide),
    lineSplit_no_newline _ (show '\n' ∉ ("        // Performance test method with violations").data by decide),
    lineSplit_no_newline _ (show '\n' ∉ ("        ").data by decide),
    lineSplit_no_newline _ (show '\n' ∉ ("        // Call some activities").data by decide),
    lineSplit_no_newline _ (show '\n' ∉ ("        await context.CallActivityAsync<int>(\"CalculateActivity\", i);").data by decide),
    lineSplit_no_newline _ (show '\n' ∉ ("        return \"completed\";").data by decide),
    lineSplit_no_newline _ (show '\n' ∉ ("    \x7d").data by decide)]
  simp [orchMethodLines]

theorem dtfMethodText_lines (i : Nat) (vs : List String)
    (hvs : ∀ v ∈ vs, '\n' ∉ v.data) (hne : vs ≠ []) :
    lineSplit (dtfMethodText i (violationCode vs)).data = dtfMethodLines i vs := by
  have hdata : (dtfMethodText i (violationCode vs)).data =
      '\n' :: ((("    public async Task<string> Method").data ++ (natToStr i).data ++ ("Async(TaskOrchestrationContext context)").data) ++
      '\n' :: (("    \x7b").data ++
      '\n' :: (("        // DTF performance test method with violations").data ++
      '\n' :: ((("        " ++ violationCode vs).data) ++
      '\n' :: (("        ").data ++
      '\n' :: (("        // Call some activities").data ++
      '\n' :: ((("        await context.CallActivityAsync<string>(\"DtfActivity").data ++ (natToStr (i % 10)).data ++ ("\", \"data\");").data) ++
      '\n' :: (("        await context.CallActivityAsync<int>(\"DtfCalculateActivity\", i);").data ++
      '\n' :: (("        ").data ++
      '\n' :: (("        return \"dtf completed\";").data ++
      '\n' :: ("    \x7d").data)))))))))) := by
    simp [dtfMethodText, String.data_append]
  have hreg : lineSplit (("        " ++ violationCode vs).data) =
      (assignLines vs).map (fun a => ("        ").data ++ a.data) := by
    unfold violationCode
    apply region_lines
    · intro hq
      have hl := assignLines_length vs
      rw [hq] at hl
      exact hne (List.length_eq_zero.mp hl.symm)
    · exact assignLines_no_newline vs hvs
  have h2 : '\n' ∉ (("    public async Task<string> Method").data ++ (natToStr i).data ++ ("Async(TaskOrchestrationContext context)").data) := by
    intro hmem
    simp only [List.append_assoc, List.mem_append] at hmem
    rcases hmem with h | h | h
    · exact absurd h (by decide)
    · exact natToStr_not_mem i '\n' (by decide) h
    · exact absurd h (by decide)
  have h8 : '\n' ∉ (("        await context.CallActivityAsync<string>(\"DtfActivity").data ++ (natToStr (i % 10)).data ++ ("\", \"data\");").data) := by
    intro hmem
    simp only [List.append_assoc, List.mem_append] at hmem
    rcases hmem with h | h | h
    · exact absurd h (by decide)
    · exact natToStr_not_mem (i % 10) '\n' (by decide) h
    · exact absurd h (by decide)
  rw [hdata, lineSplit_cons_newline, lineSplit_break, lineSplit_break, lineSplit_break,
    lineSplit_break, lineSplit_break, lineSplit_break, lineSplit_break, lineSplit_break,
    lineSplit_break, lineSplit_break]
  rw [lineSplit_no_newline _ h2, lineSplit_no_newline _ h8, hreg]
  rw [lineSplit_no_newline _ (show '\n' ∉ ("    \x7b").data by decide),
    lineSplit_no_newline _ (show '\n' ∉ ("        // DTF performance test method with violations").data by decide),
    lineSplit_no_newline _ (show '\n' ∉ ("        ").data by decide),
    lineSplit_no_newline _ (show '\n' ∉ ("        // Call some activities").data by decide),
    lineSplit_no_newline _ (show '\n' ∉ ("        await context.CallActivityAsync<int>(\"DtfCalculateActivity\", i);").data by decide),
    lineSplit_no_newline _ (show '\n' ∉ ("        return \"dtf completed\";").data by decide),
    lineSplit_no_newline _ (show '\n' ∉ ("    \x7d").data by decide)]
  simp [dtfMethodLines]

theorem activityMethodText_lines (cn : String) (i : Nat) (hcn : '\n' ∉ cn.data) :
    lineSplit (activityMethodText cn i).data = activityMethodLines cn i := by
  have hdata : (activityMethodText cn i).data =
      '\n' :: ((("    [FunctionName(\"").data ++ cn.data ++ ("_Activity").data ++ (natToStr i).data ++ ("\")]").data) ++
      '\n' :: ((("    public async Task<string> Activity").data ++ (natToStr i).data ++ ("Async([ActivityTrigger] string input, ILogger logger)").data) ++
      '\n' :: (("    \x7b").data ++
      '\n' :: ((("        logger.LogInformation($\"Processing \x7binput\x7d in activity ").data ++ (natToStr i).data ++ ("\");").data) ++
      '\n' :: (("        ").data ++
      '\n' :: (("        // Simulate work").data ++
      '\n' :: (("        await Task.Delay(Random.Shared.Next(10, 100));").data ++
      '\n' :: (("        ").data ++
      '\n' :: (("        // Activities can use non-deterministic operations").data ++
      '\n' :: (("        var timestamp = DateTime.Now;").data ++
      '\n' :: (("        var guid = Guid.NewGuid();").data ++
      '\n' :: (("        var env = Environment.GetEnvironmentVariable(\"PATH\");").data ++
      '\n' :: (("        ").data ++
      '\n' :: ((("        return $\"Activity").data ++ (natToStr i).data ++ (" result: \x7binput\x7d-\x7btimestamp\x7d-\x7bguid\x7d\";").data) ++
      '\n' :: ("    \x7d").data)))))))))))))) := by
    simp [activityMethodText, String.data_append]
  have h1 : '\n' ∉ (("    [FunctionName(\"").data ++ cn.data ++ ("_Activity").data ++ (natToStr i).data ++ ("\")]").data) := by
    intro hmem
    simp only [List.append_assoc, List.mem_append] at hmem
    rcases hmem with h | h | h | h | h
    · exact absurd h (by decide)
    · exact hcn h
    · exact absurd h (by decide)
    · exact natToStr_not_mem i '\n' (by decide) h
    · exact absurd h (by decide)
  have h2 : '\n' ∉ (("    public async Task<string> Activity").data ++ (natToStr i).data ++ ("Async([ActivityTrigger] string input, ILogger logger)").data) := by
    intro hmem
    simp only [List.append_assoc, List.mem_append] at hmem
    rcases hmem with h | h | h
    · exact absurd h (by decide)
    · exact natToStr_not_mem i '\n' (by decide) h
    · exact absurd h (by decide)
  have h4 : '\n' ∉ (("        logger.LogInformation($\"Processing \x7binput\x7d in activity ").data ++ (natToStr i).data ++ ("\");").data) := by
    intro hmem
    simp only [List.append_assoc, List.mem_append] at hmem
    rcases hmem with h | h | h
    · exact absurd h (by decide)
    · exact natToStr_not_mem i '\n' (by decide) h
    · exact absurd h (by decide)
  have h14 : '\n' ∉ (("        return $\"Activity").data ++ (natToStr i).data ++ (" result: \x7binput\x7d-\x7btimestamp\x7d-\x7bguid\x7d\";").data) := by
    intro hmem
    simp only [List.append_assoc, List.mem_append] at hmem
    rcases hmem with h | h | h
    · exact absurd h (by decide)
    · exact natToStr_not_mem i '\n' (by decide) h
    · exact absurd h (by decide)
  rw [hdata, lineSplit_cons_newline, lineSplit_break, lineSplit_break, lineSplit_break,
    lineSplit_break, lineSplit_break, lineSplit_break, lineSplit_break, lineSplit_break,
    lineSplit_break, lineSplit_break, lineSplit_break, lineSplit_break, lineSplit_break,
    lineSplit_break]
  rw [lineSplit_no_newline _ h1, lineSplit_no_newline _ h2, lineSplit_no_newline _ h4,
    lineSplit_no_newline _ h14]
  rw [lineSplit_no_newline _ (show '\n' ∉ ("    \x7b").data by decide),
    lineSplit_no_newline _ (show '\n' ∉ ("        ").data by decide),
    lineSplit_no_newline _ (show '\n' ∉ ("        // Simulate work").data by decide),
    lineSplit_no_newline _ (show '\n' ∉ ("        await Task.Delay(Random.Shared.Next(10, 100));").data by decide),
    lineSplit_no_newline _ (show '\n' ∉ ("        // Activities can use non-deterministic operations").data by decide),
    lineSplit_no_newline _ (show '\n' ∉ ("        var timestamp = DateTime.Now;").data by decide),
    lineSplit_no_newline _ (show '\n' ∉ ("        var guid = Guid.NewGuid();").data by decide),
    lineSplit_no_newline _ (show '\n' ∉ ("        var env = Environment.GetEnvironmentVariable(\"PATH\");").data by decide),
    lineSplit_no_newline _ (show '\n' ∉ ("    \x7d").data by decide)]
  simp [activityMethodLines]


-- ### Lines of a whole rendered class

theorem strJoin_lines (ms : List String) (h : ∀ m ∈ ms, ∃ r, m.data = '\n' :: r) :
    lineSplit (strJoin ms).data = [] :: (ms.map (fun m => (lineSplit m.data).tail)).flatten := by
  induction ms with
  | nil => simp [strJoin, lineSplit]
  | cons m rest ih =>
    obtain ⟨r, hr⟩ := h m (by simp)
    have hdata : (strJoin (m :: rest)).data = '\n' :: (r ++ (strJoin rest).data) := by
      simp [strJoin, String.data_append, hr]
    rw [hdata, lineSplit_cons_newline, lineSplit_append,
      ih (fun x hx => h x (List.mem_cons_of_mem _ hx)),
      glueLines_cons_empty _ _ (lineSplit_ne_nil r)]
    simp [hr, lineSplit_cons_newline]

theorem orchMethodText_head (cn : String) (i : Nat) (vc : String) :
    ∃ r, (orchMethodText cn i vc).data = '\n' :: r := by
  simp only [orchMethodText, String.data_append]
  exact ⟨_, rfl⟩

theorem dtfMethodText_head (i : Nat) (vc : String) :
    ∃ r, (dtfMethodText i vc).data = '\n' :: r := by
  simp only [dtfMethodText, String.data_append]
  exact ⟨_, rfl⟩

theorem activityMethodText_head (cn : String) (i : Nat) :
    ∃ r, (activityMethodText cn i).data = '\n' :: r := by
  simp only [activityMethodText, String.data_append]
  exact ⟨_, rfl⟩

theorem openBrace_join_lines (ms : List String) (h : ∀ m ∈ ms, ∃ r, m.data = '\n' :: r) :
    lineSplit (("    \x7b").data ++ (strJoin ms).data) =
      ("    \x7b").data :: (ms.map (fun m => (lineSplit m.data).tail)).flatten := by
  rw [lineSplit_append, strJoin_lines ms h,
    lineSplit_no_newline _ (show '\n' ∉ ("    \x7b").data by decide)]
  simp [glueLines]

theorem azureOrchClassText_lines (ns cn : String) (ms : List String)
    (hns : '\n' ∉ ns.data) (hcn : '\n' ∉ cn.data)
    (hm : ∀ m ∈ ms, ∃ r, m.data = '\n' :: r) :
    lineSplit (azureOrchClassText ns cn (strJoin ms)).data =
      ([[], ("using System;").data, ("using System.IO;").data, ("using System.Net.Http;").data, ("using System.Threading;").data, ("using System.Threading.Tasks;").data, ("using Microsoft.Azure.WebJobs;").data, ("using Microsoft.Azure.WebJobs.Extensions.DurableTask;").data, ("using Microsoft.Extensions.Logging;").data, [],
       ("namespace ").data ++ ns.data, ("\x7b").data,
       ("    public class ").data ++ cn.data, ("    \x7b").data]
      ++ (ms.map (fun m => (lineSplit m.data).tail)).flatten)
      ++ [("    \x7d").data, ("\x7d").data, []] := by
  have hdata : (azureOrchClassText ns cn (strJoin ms)).data =
      '\n' :: (("using System;").data ++
      '\n' :: (("using System.IO;").data ++
      '\n' :: (("using System.Net.Http;").data ++
      '\n' :: (("using System.Threading;").data ++
      '\n' :: (("using System.Threading.Tasks;").data ++
      '\n' :: (("using Microsoft.Azure.WebJobs;").data ++
      '\n' :: (("using Microsoft.Azure.WebJobs.Extensions.DurableTask;").data ++
      '\n' :: (("using Microsoft.Extensions.Logging;").data ++
      '\n' :: (([] : List Char) ++
      '\n' :: ((("namespace ").data ++ ns.data) ++
      '\n' :: (("\x7b").data ++
      '\n' :: ((("    public class ").data ++ cn.data) ++
      '\n' :: ((("    \x7b").data ++ (strJoin ms).data) ++
      '\n' :: (("    \x7d").data ++
      '\n' :: (("\x7d").data ++
      '\n' :: ([] : List Char)))))))))))))))) := by
    simp [azureOrchClassText, String.data_append]
  have hns2 : '\n' ∉ ("namespace ").data ++ ns.data := by
    intro hmem
    rcases List.mem_append.mp hmem with h | h
    · exact absurd h (by decide)
    · exact hns h
  have hcn2 : '\n' ∉ ("    public class ").data ++ cn.data := by
    intro hmem
    rcases List.mem_append.mp hmem with h | h
    · exact absurd h (by decide)
    · exact hcn h
  rw [hdata, lineSplit_cons_newline, lineSplit_break, lineSplit_break, lineSplit_break, lineSplit_break, lineSplit_break, lineSplit_break, lineSplit_break, lineSplit_break, lineSplit_break, lineSplit_break, lineSplit_break, lineSplit_break, lineSplit_break, lineSplit_break, lineSplit_break]
  rw [openBrace_join_lines ms hm, lineSplit_no_newline _ hns2, lineSplit_no_newline _ hcn2]
  rw [    lineSplit_no_newline _ (show '\n' ∉ ("using System;").data by decide),
    lineSplit_no_newline _ (show '\n' ∉ ("using System.IO;").data by decide),
    lineSplit_no_newline _ (show '\n' ∉ ("using System.Net.Http;").data by decide),
    lineSplit_no_newline _ (show '\n' ∉ ("using System.Threading;").data by decide),
    lineSplit_no_newline _ (show '\n' ∉ ("using System.Threading.Tasks;").data by decide),
    lineSplit_no_newline _ (show '\n' ∉ ("using Microsoft.Azure.WebJobs;").data by decide),
    lineSplit_no_newline _ (show '\n' ∉ ("using Microsoft.Azure.WebJobs.Extensions.DurableTask;").data by decide),
    lineSplit_no_newline _ (show '\n' ∉ ("using Microsoft.Extensions.Logging;").data by decide),
    lineSplit_no_newline _ (show '\n' ∉ (("\x7b").data) by decide),
    lineSplit_no_newline _ (show '\n' ∉ (("    \x7d").data) by decide),
    lineSplit_no_newline _ (show '\n' ∉ (("\x7d").data) by decide),
    lineSplit_no_newline ([] : List Char) (by decide)]
  simp

theorem activityClassText_lines (ns cn : String) (ms : List String)
    (hns : '\n' ∉ ns.data) (hcn : '\n' ∉ cn.data)
    (hm : ∀ m ∈ ms, ∃ r, m.data = '\n' :: r) :
    lineSplit (activityClassText ns cn (strJoin ms)).data =
      ([[], ("using System;").data, ("using System.Threading.Tasks;").data, ("using Microsoft.Azure.WebJobs;").data, ("using Microsoft.Azure.WebJobs.Extensions.DurableTask;").data, ("using Microsoft.Extensions.Logging;").data, [],
       ("namespace ").data ++ ns.data, ("\x7b").data,
       ("    public class ").data ++ cn.data, ("    \x7b").data]
      ++ (ms.map (fun m => (lineSplit m.data).tail)).flatten)
      ++ [("    \x7d").data, ("\x7d").data, []] := by
  have hdata : (activityClassText ns cn (strJoin ms)).data =
      '\n' :: (("using System;").data ++
      '\n' :: (("using System.Threading.Tasks;").data ++
      '\n' :: (("using Microsoft.Azure.WebJobs;").data ++
      '\n' :: (("using Microsoft.Azure.WebJobs.Extensions.DurableTask;").data ++
      '\n' :: (("using Microsoft.Extensions.Logging;").data ++
      '\n' :: (([] : List Char) ++
      '\n' :: ((("namespace ").data ++ ns.data) ++
      '\n' :: (("\x7b").data ++
      '\n' :: ((("    public class ").data ++ cn.data) ++
      '\n' :: ((("    \x7b").data ++ (strJoin ms).data) ++
      '\n' :: (("    \x7d").data ++
      '\n' :: (("\x7d").data ++
      '\n' :: ([] : List Char))))))))))))) := by
    simp [activityClassText, String.data_append]
  have hns2 : '\n' ∉ ("namespace ").data ++ ns.data := by
    intro hmem
    rcases List.mem_append.mp hmem with h | h
    · exact absurd h (by decide)
    · exact hns h
  have hcn2 : '\n' ∉ ("    public class ").data ++ cn.data := by
    intro hmem
    rcases List.mem_append.mp hmem with h | h
    · exact absurd h (by decide)
    · exact hcn h
  rw [hdata, lineSplit_cons_newline, lineSplit_break, lineSplit_break, lineSplit_break, lineSplit_break, lineSplit_break, lineSplit_break, lineSplit_break, lineSplit_break, lineSplit_break, lineSplit_break, lineSplit_break, lineSplit_break]
  rw [openBrace_join_lines ms hm, lineSplit_no_newline _ hns2, lineSplit_no_newline _ hcn2]
  rw [    lineSplit_no_newline _ (show '\n' ∉ ("using System;").data by decide),
    lineSplit_no_newline _ (show '\n' ∉ ("using System.Threading.Tasks;").data by decide),
    lineSplit_no_newline _ (show '\n' ∉ ("using Microsoft.Azure.WebJobs;").data by decide),
    lineSplit_no_newline _ (show '\n' ∉ ("using Microsoft.Azure.WebJobs.Extensions.DurableTask;").data by decide),
    lineSplit_no_newline _ (show '\n' ∉ ("using Microsoft.Extensions.Logging;").data by decide),
    lineSplit_no_newline _ (show '\n' ∉ (("\x7b").data) by decide),
    lineSplit_no_newline _ (show '\n' ∉ (("    \x7d").data) by decide),
    lineSplit_no_newline _ (show '\n' ∉ (("\x7d").data) by decide),
    lineSplit_no_newline ([] : List Char) (by decide)]
  simp

theorem dtfClassText_lines (ns cn : String) (ms : List String)
    (hns : '\n' ∉ ns.data) (hcn : '\n' ∉ cn.data)
    (hm : ∀ m ∈ ms, ∃ r, m.data = '\n' :: r) :
    lineSplit (dtfClassText ns cn (strJoin ms)).data =
      ([[], ("using System;").data, ("using System.IO;").data, ("using System.Net.Http;").data, ("using System.Threading;").data, ("using System.Threading.Tasks;").data, ("using Microsoft.DurableTask;").data, [],
       ("namespace ").data ++ ns.data, ("\x7b").data,
       ("    public class ").data ++ cn.data, ("    \x7b").data]
      ++ (ms.map (fun m => (lineSplit m.data).tail)).flatten)
      ++ [("    \x7d").data, ("\x7d").data, []] := by
  have hdata : (dtfClassText ns cn (strJoin ms)).data =
      '\n' :: (("using System;").data ++
      '\n' :: (("using System.IO;").data ++
      '\n' :: (("using System.Net.Http;").data ++
      '\n' :: (("using System.Threading;").data ++
      '\n' :: (("using System.Threading.Tasks;").data ++
      '\n' :: (("using Microsoft.DurableTask;").data ++
      '\n' :: (([] : List Char) ++
      '\n' :: ((("namespace ").data ++ ns.data) ++
      '\n' :: (("\x7b").data ++
      '\n' :: ((("    public class ").data ++ cn.data) ++
      '\n' :: ((("    \x7b").data ++ (strJoin ms).data) ++
      '\n' :: (("    \x7d").data ++
      '\n' :: (("\x7d").data ++
      '\n' :: ([] : List Char)))))))))))))) := by
    simp [dtfClassText, String.data_append]
  have hns2 : '\n' ∉ ("namespace ").data ++ ns.data := by
    intro hmem
    rcases List.mem_append.mp hmem with h | h
    · exact absurd h (by decide)
    · exact hns h
  have hcn2 : '\n' ∉ ("    public class ").data ++ cn.data := by
    intro hmem
    rcases List.mem_append.mp hmem with h | h
    · exact absurd h (by decide)
    · exact hcn h
  rw [hdata, lineSplit_cons_newline, lineSplit_break, lineSplit_break, lineSplit_break, lineSplit_break, lineSplit_break, lineSplit_break, lineSplit_break, lineSplit_break, lineSplit_break, lineSplit_break, lineSplit_break, lineSplit_break, lineSplit_break]
  rw [openBrace_join_lines ms hm, lineSplit_no_newline _ hns2, lineSplit_no_newline _ hcn2]
  rw [    lineSplit_no_newline _ (show '\n' ∉ ("using System;").data by decide),
    lineSplit_no_newline _ (show '\n' ∉ ("using System.IO;").data by decide),
    lineSplit_no_newline _ (show '\n' ∉ ("using System.Net.Http;").data by decide),
    lineSplit_no_newline _ (show '\n' ∉ ("using System.Threading;").data by decide),
    lineSplit_no_newline _ (show '\n' ∉ ("using System.Threading.Tasks;").data by decide),
    lineSplit_no_newline _ (show '\n' ∉ ("using Microsoft.DurableTask;").data by decide),
    lineSplit_no_newline _ (show '\n' ∉ (("\x7b").data) by decide),
    lineSplit_no_newline _ (show '\n' ∉ (("    \x7d").data) by decide),
    lineSplit_no_newline _ (show '\n' ∉ (("\x7d").data) by decide),
    lineSplit_no_newline ([] : List Char) (by decide)]
  simp

-- ### Textual markers and their evaluation on the template lines

/-- Marker of a downstream activity invocation in emitted text. -/
def callPat : List Char := ("CallActivityAsync<").data

/-- Marker of a method signature in emitted text. -/
def sigPat : List Char := ("public async Task<string> ").data

/-- Marker of use of the .NET random source in emitted text. -/
def randomPat : List Char := ("Random").data

/-- Marker of an injected violation assignment in emitted text. -/
def varTempPat : List Char := ("var temp").data

theorem natToStr_data_ne_nil (n : Nat) : (natToStr n).data ≠ [] := natDigits_ne_nil n

theorem hasSub_digit_insert (pat A B : List Char) (n : Nat) (hne : pat ≠ [])
    (hp : ∀ c ∈ pat, c.toNat < 48 ∨ 57 < c.toNat)
    (hA : hasSub pat A = false) (hB : hasSub pat B = false) :
    hasSub pat (A ++ (natToStr n).data ++ B) = false := by
  apply hasSub_skip_disjoint pat A _ B hne (natToStr_data_ne_nil n) _ hA hB
  intro c hc hcp
  obtain ⟨h1, h2⟩ := natDigits_mem_toNat n c hc
  rcases hp c hcp with h | h <;> omega

theorem hasSub_true_left2 (pat A D B : List Char) (h : hasSub pat A = true) :
    hasSub pat (A ++ D ++ B) = true :=
  hasSub_append_left _ _ _ (hasSub_append_left _ _ _ h)

/-- The violation-assignment region of a rendered orchestrator method, as lines. -/
def regionLines (vs : List String) : List (List Char) :=
  (assignLines vs).map (fun a => ("        ").data ++ a.data)

theorem regionLines_all_varTemp (vs : List String) :
    ∀ x ∈ regionLines vs, hasSub varTempPat x = true := by
  intro x hx
  obtain ⟨a, ha, rfl⟩ := List.mem_map.mp hx
  obtain ⟨m, v, _, hv, he⟩ := assignLines_shape vs a ha
  subst he
  apply hasSub_append_right
  simp only [String.data_append, List.append_assoc]
  exact hasSub_append_left _ _ _ (by decide)

theorem regionLines_no_callPat (vs : List String)
    (hvs : ∀ v ∈ vs, v ∈ violationsCatalog) :
    ∀ x ∈ regionLines vs, hasSub callPat x = false := by
  intro x hx
  obtain ⟨a, ha, rfl⟩ := List.mem_map.mp hx
  obtain ⟨m, v, _, hv, he⟩ := assignLines_shape vs a ha
  subst he
  apply hasSub_char_missing _ _ '<' (by decide)
  intro hmem
  simp only [String.data_append, List.append_assoc, List.mem_append] at hmem
  rcases hmem with h | h | h | h | h | h
  · exact absurd h (by decide)
  · exact absurd h (by decide)
  · exact natToStr_not_mem m '<' (by decide) h
  · exact absurd h (by decide)
  · exact catalog_no_lt v (hvs v hv) h
  · exact absurd h (by decide)

theorem regionLines_no_sigPat (vs : List String)
    (hvs : ∀ v ∈ vs, v ∈ violationsCatalog) :
    ∀ x ∈ regionLines vs, hasSub sigPat x = false := by
  intro x hx
  obtain ⟨a, ha, rfl⟩ := List.mem_map.mp hx
  obtain ⟨m, v, _, hv, he⟩ := assignLines_shape vs a ha
  subst he
  apply hasSub_char_missing _ _ '<' (by decide)
  intro hmem
  simp only [String.data_append, List.append_assoc, List.mem_append] at hmem
  rcases hmem with h | h | h | h | h | h
  · exact absurd h (by decide)
  · exact absurd h (by decide)
  · exact natToStr_not_mem m '<' (by decide) h
  · exact absurd h (by decide)
  · exact catalog_no_lt v (hvs v hv) h
  · exact absurd h (by decide)

-- ### Evaluating the markers on an Azure orchestrator method

theorem orch_callLine1_false (cn : String) (i : Nat) (hlt : '<' ∉ cn.data) :
    hasSub callPat (("    [FunctionName(\"").data ++ cn.data ++ ("_Method").data ++
      (natToStr i).data ++ ("\")]").data) = false := by
  apply hasSub_char_missing _ _ '<' (by decide)
  intro hmem
  simp only [List.append_assoc, List.mem_append] at hmem
  rcases hmem with h | h | h | h | h
  · exact absurd h (by decide)
  · exact hlt h
  · exact absurd h (by decide)
  · exact natToStr_not_mem i '<' (by decide) h
  · exact absurd h (by decide)

theorem orch_callLine2_false (i : Nat) :
    hasSub callPat (("    public async Task<string> Method").data ++ (natToStr i).data ++
      ("Async(").data) = false := by
  apply hasSub_char_missing _ _ 'C' (by decide)
  intro hmem
  simp only [List.append_assoc, List.mem_append] at hmem
  rcases hmem with h | h | h
  · exact absurd h (by decide)
  · exact natToStr_not_mem i 'C' (by decide) h
  · exact absurd h (by decide)

theorem orch_filter_call (cn : String) (i : Nat) (vs : List String)
    (hlt : '<' ∉ cn.data) (hvs : ∀ v ∈ vs, v ∈ violationsCatalog) :
    (orchMethodLines cn i vs).filter (hasSub callPat) =
      [("        await context.CallActivityAsync<string>(\"Activity").data ++
         (natToStr (i % 10)).data ++ ("\", \"data\");").data,
       ("        await context.CallActivityAsync<int>(\"CalculateActivity\", i);").data] := by
  unfold orchMethodLines
  rw [List.filter_append, List.filter_append]
  rw [List.filter_cons_of_neg (by decide),
    List.filter_cons_of_neg (by rw [orch_callLine1_false cn i hlt]; simp),
    List.filter_cons_of_neg (by rw [orch_callLine2_false i]; simp),
    List.filter_cons_of_neg (by decide),
    List.filter_cons_of_neg (by decide),
    List.filter_cons_of_neg (by decide),
    List.filter_nil]
  rw [List.filter_eq_nil_iff.mpr (fun x hx => by
    rw [regionLines_no_callPat vs hvs x hx]; simp)]
  rw [List.filter_cons_of_neg (by decide),
    List.filter_cons_of_neg (by decide),
    List.filter_cons_of_pos (hasSub_true_left2 _ _ _ _ (by decide)),
    List.filter_cons_of_pos (by decide),
    List.filter_cons_of_neg (by decide),
    List.filter_cons_of_neg (by decide),
    List.filter_cons_of_neg (by decide),
    List.filter_nil]
  simp

/-- Negation of the violation-assignment marker (used for skeletons). -/
def notVarTemp (l : List Char) : Bool := !(hasSub varTempPat l)

/-- The violation-independent lines of a rendered Azure orchestrator method
(everything except the assignment region), in order. -/
def orchSkelTail (cn : String) (i : Nat) : List (List Char) :=
  [("    [FunctionName(\"").data ++ cn.data ++ ("_Method").data ++ (natToStr i).data ++ ("\")]").data,
   ("    public async Task<string> Method").data ++ (natToStr i).data ++ ("Async(").data,
   ("        [OrchestrationTrigger] IDurableOrchestrationContext context)").data,
   ("    \x7b").data,
   ("        // Performance test method with violations").data,
   ("        ").data,
   ("        // Call some activities").data,
   ("        await context.CallActivityAsync<string>(\"Activity").data ++ (natToStr (i % 10)).data ++ ("\", \"data\");").data,
   ("        await context.CallActivityAsync<int>(\"CalculateActivity\", i);").data,
   ("        ").data,
   ("        return \"completed\";").data,
   ("    \x7d").data]

/-- The violation-independent lines of a rendered DTF orchestrator method. -/
def dtfSkelTail (i : Nat) : List (List Char) :=
  [("    public async Task<string> Method").data ++ (natToStr i).data ++ ("Async(TaskOrchestrationContext context)").data,
   ("    \x7b").data,
   ("        // DTF performance test method with violations").data,
   ("        ").data,
   ("        // Call some activities").data,
   ("        await context.CallActivityAsync<string>(\"DtfActivity").data ++ (natToStr (i % 10)).data ++ ("\", \"data\");").data,
   ("        await context.CallActivityAsync<int>(\"DtfCalculateActivity\", i);").data,
   ("        ").data,
   ("        return \"dtf completed\";").data,
   ("    \x7d").data]

theorem orch_sigLine1_false (cn : String) (i : Nat) (hlt : '<' ∉ cn.data) :
    hasSub sigPat (("    [FunctionName(\"").data ++ cn.data ++ ("_Method").data ++
      (natToStr i).data ++ ("\")]").data) = false := by
  apply hasSub_char_missing _ _ '<' (by decide)
  intro hmem
  simp only [List.append_assoc, List.mem_append] at hmem
  rcases hmem with h | h | h | h | h
  · exact absurd h (by decide)
  · exact hlt h
  · exact absurd h (by decide)
  · exact natToStr_not_mem i '<' (by decide) h
  · exact absurd h (by decide)

theorem orch_filter_sig (cn : String) (i : Nat) (vs : List String)
    (hlt : '<' ∉ cn.data) (hvs : ∀ v ∈ vs, v ∈ violationsCatalog) :
    (orchMethodLines cn i vs).filter (hasSub sigPat) =
      [("    public async Task<string> Method").data ++ (natToStr i).data ++ ("Async(").data] := by
  unfold orchMethodLines
  rw [List.filter_append, List.filter_append]
  rw [List.filter_cons_of_neg (by decide),
    List.filter_cons_of_neg (by rw [orch_sigLine1_false cn i hlt]; simp),
    List.filter_cons_of_pos (hasSub_true_left2 _ _ _ _ (by decide)),
    List.filter_cons_of_neg (by decide),
    List.filter_cons_of_neg (by decide),
    List.filter_cons_of_neg (by decide),
    List.filter_nil]
  rw [List.filter_eq_nil_iff.mpr (fun x hx => by
    rw [regionLines_no_sigPat vs hvs x hx]; simp)]
  rw [List.filter_cons_of_neg (by decide),
    List.filter_cons_of_neg (by decide),
    List.filter_cons_of_neg (by
      rw [hasSub_digit_insert sigPat _ _ (i % 10) (by decide) (by decide) (by decide) (by decide)]
      simp),
    List.filter_cons_of_neg (by decide),
    List.filter_cons_of_neg (by decide),
    List.filter_cons_of_neg (by decide),
    List.filter_cons_of_neg (by decide),
    List.filter_nil]
  simp

theorem orch_varTempLine1_false (cn : String) (i : Nat) (hv : 'v' ∉ cn.data) :
    hasSub varTempPat (("    [FunctionName(\"").data ++ cn.data ++ ("_Method").data ++
      (natToStr i).data ++ ("\")]").data) = false := by
  apply hasSub_char_missing _ _ 'v' (by decide)
  intro hmem
  simp only [List.append_assoc, List.mem_append] at hmem
  rcases hmem with h | h | h | h | h
  · exact absurd h (by decide)
  · exact hv h
  · exact absurd h (by decide)
  · exact natToStr_not_mem i 'v' (by decide) h
  · exact absurd h (by decide)

theorem orch_filter_varTemp (cn : String) (i : Nat) (vs : List String)
    (hv : 'v' ∉ cn.data) :
    (orchMethodLines cn i vs).filter (hasSub varTempPat) = regionLines vs := by
  unfold orchMethodLines
  rw [List.filter_append, List.filter_append]
  rw [List.filter_cons_of_neg (by decide),
    List.filter_cons_of_neg (by rw [orch_varTempLine1_false cn i hv]; simp),
    List.filter_cons_of_neg (by
      rw [hasSub_digit_insert varTempPat _ _ i (by decide) (by decide) (by decide) (by decide)]
      simp),
    List.filter_cons_of_neg (by decide),
    List.filter_cons_of_neg (by decide),
    List.filter_cons_of_neg (by decide),
    List.filter_nil]
  have hR : (assignLines vs).map (fun a => ("        ").data ++ a.data) = regionLines vs := rfl
  rw [hR, List.filter_eq_self.mpr (regionLines_all_varTemp vs)]
  rw [List.filter_cons_of_neg (by decide),
    List.filter_cons_of_neg (by decide),
    List.filter_cons_of_neg (by
      rw [hasSub_digit_insert varTempPat _ _ (i % 10) (by decide) (by decide) (by decide) (by decide)]
      simp),
    List.filter_cons_of_neg (by decide),
    List.filter_cons_of_neg (by decide),
    List.filter_cons_of_neg (by decide),
    List.filter_cons_of_neg (by decide),
    List.filter_nil]
  simp [regionLines]

theorem orch_filter_skeleton (cn : String) (i : Nat) (vs : List String)
    (hv : 'v' ∉ cn.data) :
    (orchMethodLines cn i vs).filter notVarTemp = [] :: orchSkelTail cn i := by
  unfold orchMethodLines
  rw [List.filter_append, List.filter_append]
  rw [List.filter_cons_of_pos (by decide),
    List.filter_cons_of_pos (by unfold notVarTemp; rw [orch_varTempLine1_false cn i hv]; rfl),
    List.filter_cons_of_pos (by
      unfold notVarTemp
      rw [hasSub_digit_insert varTempPat _ _ i (by decide) (by decide) (by decide) (by decide)]
      rfl),
    List.filter_cons_of_pos (by decide),
    List.filter_cons_of_pos (by decide),
    List.filter_cons_of_pos (by decide),
    List.filter_nil]
  rw [List.filter_eq_nil_iff.mpr (fun x hx => by
    unfold notVarTemp
    rw [regionLines_all_varTemp vs x hx]
    simp)]
  rw [List.filter_cons_of_pos (by decide),
    List.filter_cons_of_pos (by decide),
    List.filter_cons_of_pos (by
      unfold notVarTemp
      rw [hasSub_digit_insert varTempPat _ _ (i % 10) (by decide) (by decide) (by decide) (by decide)]
      rfl),
    List.filter_cons_of_pos (by decide),
    List.filter_cons_of_pos (by decide),
    List.filter_cons_of_pos (by decide),
    List.filter_cons_of_pos (by decide),
    List.filter_nil]
  simp [orchSkelTail]

-- ### Evaluating the markers on a DTF orchestrator method

theorem dtf_filter_call (i : Nat) (vs : List String)
    (hvs : ∀ v ∈ vs, v ∈ violationsCatalog) :
    (dtfMethodLines i vs).filter (hasSub callPat) =
      [("        await context.CallActivityAsync<string>(\"DtfActivity").data ++
         (natToStr (i % 10)).data ++ ("\", \"data\");").data,
       ("        await context.CallActivityAsync<int>(\"DtfCalculateActivity\", i);").data] := by
  unfold dtfMethodLines
  rw [List.filter_append, List.filter_append]
  rw [List.filter_cons_of_neg (by decide),
    List.filter_cons_of_neg (by
      rw [hasSub_digit_insert callPat _ _ i (by decide) (by decide) (by decide) (by decide)]
      simp),
    List.filter_cons_of_neg (by decide),
    List.filter_cons_of_neg (by decide),
    List.filter_nil]
  rw [List.filter_eq_nil_iff.mpr (fun x hx => by
    rw [regionLines_no_callPat vs hvs x hx]; simp)]
  rw [List.filter_cons_of_neg (by decide),
    List.filter_cons_of_neg (by decide),
    List.filter_cons_of_pos (hasSub_true_left2 _ _ _ _ (by decide)),
    List.filter_cons_of_pos (by decide),
    List.filter_cons_of_neg (by decide),
    List.filter_cons_of_neg (by decide),
    List.filter_cons_of_neg (by decide),
    List.filter_nil]
  simp

theorem dtf_filter_sig (i : Nat) (vs : List String)
    (hvs : ∀ v ∈ vs, v ∈ violationsCatalog) :
    (dtfMethodLines i vs).filter (hasSub sigPat) =
      [("    public async Task<string> Method").data ++ (natToStr i).data ++
        ("Async(TaskOrchestrationContext context)").data] := by
  unfold dtfMethodLines
  rw [List.filter_append, List.filter_append]
  rw [List.filter_cons_of_neg (by decide),
    List.filter_cons_of_pos (hasSub_true_left2 _ _ _ _ (by decide)),
    List.filter_cons_of_neg (by decide),
    List.filter_cons_of_neg (by decide),
    List.filter_nil]
  rw [List.filter_eq_nil_iff.mpr (fun x hx => by
    rw [regionLines_no_sigPat vs hvs x hx]; simp)]
  rw [List.filter_cons_of_neg (by decide),
    List.filter_cons_of_neg (by decide),
    List.filter_cons_of_neg (by
      rw [hasSub_digit_insert sigPat _ _ (i % 10) (by decide) (by decide) (by decide) (by decide)]
      simp),
    List.filter_cons_of_neg (by decide),
    List.filter_cons_of_neg (by decide),
    List.filter_cons_of_neg (by decide),
    List.filter_cons_of_neg (by decide),
    List.filter_nil]
  simp

theorem dtf_filter_varTemp (i : Nat) (vs : List String) :
    (dtfMethodLines i vs).filter (hasSub varTempPat) = regionLines vs := by
  unfold dtfMethodLines
  rw [List.filter_append, List.filter_append]
  rw [List.filter_cons_of_neg (by decide),
    List.filter_cons_of_neg (by
      rw [hasSub_digit_insert varTempPat _ _ i (by decide) (by decide) (by decide) (by decide)]
      simp),
    List.filter_cons_of_neg (by decide),
    List.filter_cons_of_neg (by decide),
    List.filter_nil]
  have hR : (assignLines vs).map (fun a => ("        ").data ++ a.data) = regionLines vs := rfl
  rw [hR, List.filter_eq_self.mpr (regionLines_all_varTemp vs)]
  rw [List.filter_cons_of_neg (by decide),
    List.filter_cons_of_neg (by decide),
    List.filter_cons_of_neg (by
      rw [hasSub_digit_insert varTempPat _ _ (i % 10) (by decide) (by decide) (by decide) (by decide)]
      simp),
    List.filter_cons_of_neg (by decide),
    List.filter_cons_of_neg (by decide),
    List.filter_cons_of_neg (by decide),
    List.filter_cons_of_neg (by decide),
    List.filter_nil]
  simp [regionLines]

theorem dtf_filter_skeleton (i : Nat) (vs : List String) :
    (dtfMethodLines i vs).filter notVarTemp = [] :: dtfSkelTail i := by
  unfold dtfMethodLines
  rw [List.filter_append, List.filter_append]
  rw [List.filter_cons_of_pos (by decide),
    List.filter_cons_of_pos (by
      unfold notVarTemp
      rw [hasSub_digit_insert varTempPat _ _ i (by decide) (by decide) (by decide) (by decide)]
      rfl),
    List.filter_cons_of_pos (by decide),
    List.filter_cons_of_pos (by decide),
    List.filter_nil]
  rw [List.filter_eq_nil_iff.mpr (fun x hx => by
    unfold notVarTemp
    rw [regionLines_all_varTemp vs x hx]
    simp)]
  rw [List.filter_cons_of_pos (by decide),
    List.filter_cons_of_pos (by decide),
    List.filter_cons_of_pos (by
      unfold notVarTemp
      rw [hasSub_digit_insert varTempPat _ _ (i % 10) (by decide) (by decide) (by decide) (by decide)]
      rfl),
    List.filter_cons_of_pos (by decide),
    List.filter_cons_of_pos (by decide),
    List.filter_cons_of_pos (by decide),
    List.filter_cons_of_pos (by decide),
    List.filter_nil]
  simp [dtfSkelTail]

-- ### Evaluating the markers on an activity method

theorem act_sigLine1_false (cn : String) (i : Nat) (hlt : '<' ∉ cn.data) :
    hasSub sigPat (("    [FunctionName(\"").data ++ cn.data ++ ("_Activity").data ++
      (natToStr i).data ++ ("\")]").data) = false := by
  apply hasSub_char_missing _ _ '<' (by decide)
  intro hmem
  simp only [List.append_assoc, List.mem_append] at hmem
  rcases hmem with h | h | h | h | h
  · exact absurd h (by decide)
  · exact hlt h
  · exact absurd h (by decide)
  · exact natToStr_not_mem i '<' (by decide) h
  · exact absurd h (by decide)

theorem act_filter_sig (cn : String) (i : Nat) (hlt : '<' ∉ cn.data) :
    (activityMethodLines cn i).filter (hasSub sigPat) =
      [("    public async Task<string> Activity").data ++ (natToStr i).data ++
        ("Async([ActivityTrigger] string input, ILogger logger)").data] := by
  unfold activityMethodLines
  rw [List.filter_cons_of_neg (by decide),
    List.filter_cons_of_neg (by rw [act_sigLine1_false cn i hlt]; simp),
    List.filter_cons_of_pos (hasSub_true_left2 _ _ _ _ (by decide)),
    List.filter_cons_of_neg (by decide),
    List.filter_cons_of_neg (by
      rw [hasSub_digit_insert sigPat _ _ i (by decide) (by decide) (by decide) (by decide)]
      simp),
    List.filter_cons_of_neg (by decide),
    List.filter_cons_of_neg (by decide),
    List.filter_cons_of_neg (by decide),
    List.filter_cons_of_neg (by decide),
    List.filter_cons_of_neg (by decide),
    List.filter_cons_of_neg (by decide),
    List.filter_cons_of_neg (by decide),
    List.filter_cons_of_neg (by decide),
    List.filter_cons_of_neg (by decide),
    List.filter_cons_of_neg (by
      rw [hasSub_digit_insert sigPat _ _ i (by decide) (by decide) (by decide) (by decide)]
      simp),
    List.filter_cons_of_neg (by decide),
    List.filter_nil]

theorem act_randomLine1_false (cn : String) (i : Nat) (hR : 'R' ∉ cn.data) :
    hasSub randomPat (("    [FunctionName(\"").data ++ cn.data ++ ("_Activity").data ++
      (natToStr i).data ++ ("\")]").data) = false := by
  apply hasSub_char_missing _ _ 'R' (by decide)
  intro hmem
  simp only [List.append_assoc, List.mem_append] at hmem
  rcases hmem with h | h | h | h | h
  · exact absurd h (by decide)
  · exact hR h
  · exact absurd h (by decide)
  · exact natToStr_not_mem i 'R' (by decide) h
  · exact absurd h (by decide)

theorem act_filter_random (cn : String) (i : Nat) (hR : 'R' ∉ cn.data) :
    (activityMethodLines cn i).filter (hasSub randomPat) =
      [("        await Task.Delay(Random.Shared.Next(10, 100));").data] := by
  unfold activityMethodLines
  rw [List.filter_cons_of_neg (by decide),
    List.filter_cons_of_neg (by rw [act_randomLine1_false cn i hR]; simp),
    List.filter_cons_of_neg (by
      rw [hasSub_digit_insert randomPat _ _ i (by decide) (by decide) (by decide) (by decide)]
      simp),
    List.filter_cons_of_neg (by decide),
    List.filter_cons_of_neg (by
      rw [hasSub_digit_insert randomPat _ _ i (by decide) (by decide) (by decide) (by decide)]
      simp),
    List.filter_cons_of_neg (by decide),
    List.filter_cons_of_neg (by decide),
    List.filter_cons_of_pos (by decide),
    List.filter_cons_of_neg (by decide),
    List.filter_cons_of_neg (by decide),
    List.filter_cons_of_neg (by decide),
    List.filter_cons_of_neg (by decide),
    List.filter_cons_of_neg (by decide),
    List.filter_cons_of_neg (by decide),
    List.filter_cons_of_neg (by
      rw [hasSub_digit_insert randomPat _ _ i (by decide) (by decide) (by decide) (by decide)]
      simp),
    List.filter_cons_of_neg (by decide),
    List.filter_nil]

-- ### Claim-facing text extraction functions

/-- The lines of an emitted text. -/
def linesOf (s : String) : List (List Char) := lineSplit s.data

/-- How many method signatures an emitted text contains. -/
def methodSigCount (s : String) : Nat := ((linesOf s).filter (hasSub sigPat)).length

/-- The downstream-activity-invocation lines of an emitted text. -/
def callLinesOf (s : String) : List (List Char) := (linesOf s).filter (hasSub callPat)

/-- The injected-violation assignment lines of an emitted text. -/
def violLinesOf (s : String) : List (List Char) := (linesOf s).filter (hasSub varTempPat)

/-- An emitted text without its injected-violation assignment lines. -/
def skeletonOf (s : String) : List (List Char) := (linesOf s).filter notVarTemp

/-- The lines of an emitted text that mention the .NET random source. -/
def randomLinesOf (s : String) : List (List Char) := (linesOf s).filter (hasSub randomPat)

-- ### Filtering method tails

theorem tail_filter_of_neg (p : List Char → Bool) (L : List (List Char))
    (h : L = [] :: L.tail) (hx : p [] = false) : L.tail.filter p = L.filter p := by
  conv_rhs => rw [h]
  rw [List.filter_cons_of_neg (by simp [hx])]

theorem tail_filter_of_pos (p : List Char → Bool) (L : List (List Char))
    (h : L = [] :: L.tail) (hx : p [] = true) : L.tail.filter p = (L.filter p).tail := by
  conv_rhs => rw [h, List.filter_cons_of_pos hx]
  simp

theorem orchMethodLines_cons (cn : String) (i : Nat) (vs : List String) :
    orchMethodLines cn i vs = [] :: (orchMethodLines cn i vs).tail := rfl

theorem dtfMethodLines_cons (i : Nat) (vs : List String) :
    dtfMethodLines i vs = [] :: (dtfMethodLines i vs).tail := rfl

theorem activityMethodLines_cons (cn : String) (i : Nat) :
    activityMethodLines cn i = [] :: (activityMethodLines cn i).tail := rfl

theorem filter_flatten_eq (p : List Char → Bool) (L : List (List (List Char))) :
    L.flatten.filter p = (L.map (List.filter p)).flatten := by
  induction L with
  | nil => rfl
  | cons x xs ih => simp [List.filter_append, ih]

-- ### The violations sampled for each generated method are well formed

theorem orchMethods_pairs (cn : String) (is : List Nat) (s : RState) :
    ∀ p ∈ (orchMethods cn is s).1, ∃ i, i ∈ is ∧
      1 ≤ p.1.length ∧ p.1.length ≤ 4 ∧ p.1.Nodup ∧ (∀ v ∈ p.1, v ∈ violationsCatalog) ∧
      p.1.length ≤ violationsCatalog.length ∧
      p.2 = orchMethodText cn i (violationCode p.1) := by
  induction is generalizing s with
  | nil => intro p hp; exact absurd hp (by simp [orchMethods])
  | cons i is ih =>
    intro p hp
    simp only [orchMethods, List.mem_cons] at hp
    rcases hp with rfl | hp'
    · obtain ⟨h1, h4⟩ := gov_length_bounds s
      exact ⟨i, by simp, h1, h4, gov_nodup s, gov_subset s, by
        show (generate_orchestrator_violations s).1.length ≤ violationsCatalog.length
        rw [violationsCatalog_length]; omega, rfl⟩
    · obtain ⟨j, hj, rest⟩ := ih _ p hp'
      exact ⟨j, List.mem_cons_of_mem _ hj, rest⟩

theorem dtfMethods_pairs (is : List Nat) (s : RState) :
    ∀ p ∈ (dtfMethods is s).1, ∃ i, i ∈ is ∧
      1 ≤ p.1.length ∧ p.1.length ≤ 4 ∧ p.1.Nodup ∧ (∀ v ∈ p.1, v ∈ violationsCatalog) ∧
      p.1.length ≤ violationsCatalog.length ∧
      p.2 = dtfMethodText i (violationCode p.1) := by
  induction is generalizing s with
  | nil => intro p hp; exact absurd hp (by simp [dtfMethods])
  | cons i is ih =>
    intro p hp
    simp only [dtfMethods, List.mem_cons] at hp
    rcases hp with rfl | hp'
    · obtain ⟨h1, h4⟩ := gov_length_bounds s
      exact ⟨i, by simp, h1, h4, gov_nodup s, gov_subset s, by
        show (generate_orchestrator_violations s).1.length ≤ violationsCatalog.length
        rw [violationsCatalog_length]; omega, rfl⟩
    · obtain ⟨j, hj, rest⟩ := ih _ p hp'
      exact ⟨j, List.mem_cons_of_mem _ hj, rest⟩

theorem orchMethods_length (cn : String) (is : List Nat) (s : RState) :
    (orchMethods cn is s).1.length = is.length := by
  induction is generalizing s with
  | nil => simp [orchMethods]
  | cons i is ih => simp [orchMethods, ih]

theorem dtfMethods_length (is : List Nat) (s : RState) :
    (dtfMethods is s).1.length = is.length := by
  induction is generalizing s with
  | nil => simp [dtfMethods]
  | cons i is ih => simp [dtfMethods, ih]

-- ### Marker evaluation across all methods of one class body

theorem gov_no_newline (s : RState) :
    ∀ v ∈ (generate_orchestrator_violations s).1, '\n' ∉ v.data :=
  fun v hv => catalog_no_newline v (gov_subset s v hv)

theorem gov_ne_nil (s : RState) : (generate_orchestrator_violations s).1 ≠ [] := by
  have h := (gov_length_bounds s).1
  intro hq
  rw [hq] at h
  simp at h

theorem orch_body_sig (cn : String) (is : List Nat) (s : RState)
    (hnl : '\n' ∉ cn.data) (hlt : '<' ∉ cn.data) :
    (((((orchMethods cn is s).1.map Prod.snd).map
        (fun m => (lineSplit m.data).tail)).flatten).filter (hasSub sigPat)).length
      = is.length := by
  induction is generalizing s with
  | nil => simp [orchMethods]
  | cons i is ih =>
    simp only [orchMethods, List.map_cons, List.flatten_cons, List.filter_append,
      List.length_append]
    rw [orchMethodText_lines cn i _ hnl (gov_no_newline s) (gov_ne_nil s)]
    rw [tail_filter_of_neg _ _ (orchMethodLines_cons cn i _) (by decide)]
    rw [orch_filter_sig cn i _ hlt (gov_subset s)]
    rw [ih]
    simp
    omega

theorem orch_body_skeleton (cn : String) (is : List Nat) (s : RState)
    (hnl : '\n' ∉ cn.data) (hv : 'v' ∉ cn.data) :
    ((((orchMethods cn is s).1.map Prod.snd).map
        (fun m => (lineSplit m.data).tail)).flatten).filter notVarTemp
      = (is.map (fun i => orchSkelTail cn i)).flatten := by
  induction is generalizing s with
  | nil => simp [orchMethods]
  | cons i is ih =>
    simp only [orchMethods, List.map_cons, List.flatten_cons, List.filter_append]
    rw [orchMethodText_lines cn i _ hnl (gov_no_newline s) (gov_ne_nil s)]
    rw [tail_filter_of_pos _ _ (orchMethodLines_cons cn i _) (by decide)]
    rw [orch_filter_skeleton cn i _ hv]
    rw [ih]
    simp

theorem orch_body_violLines (cn : String) (is : List Nat) (s : RState)
    (hnl : '\n' ∉ cn.data) (hv : 'v' ∉ cn.data) :
    ((((orchMethods cn is s).1.map Prod.snd).map
        (fun m => (lineSplit m.data).tail)).flatten).filter (hasSub varTempPat)
      = ((orchMethods cn is s).1.map (fun p => regionLines p.1)).flatten := by
  induction is generalizing s with
  | nil => simp [orchMethods]
  | cons i is ih =>
    simp only [orchMethods, List.map_cons, List.flatten_cons, List.filter_append]
    rw [orchMethodText_lines cn i _ hnl (gov_no_newline s) (gov_ne_nil s)]
    rw [tail_filter_of_neg _ _ (orchMethodLines_cons cn i _) (by decide)]
    rw [orch_filter_varTemp cn i _ hv]
    rw [ih]

theorem dtf_body_sig (is : List Nat) (s : RState) :
    (((((dtfMethods is s).1.map Prod.snd).map
        (fun m => (lineSplit m.data).tail)).flatten).filter (hasSub sigPat)).length
      = is.length := by
  induction is generalizing s with
  | nil => simp [dtfMethods]
  | cons i is ih =>
    simp only [dtfMethods, List.map_cons, List.flatten_cons, List.filter_append,
      List.length_append]
    rw [dtfMethodText_lines i _ (gov_no_newline s) (gov_ne_nil s)]
    rw [tail_filter_of_neg _ _ (dtfMethodLines_cons i _) (by decide)]
    rw [dtf_filter_sig i _ (gov_subset s)]
    rw [ih]
    simp
    omega

theorem dtf_body_skeleton (is : List Nat) (s : RState) :
    (((dtfMethods is s).1.map Prod.snd).map
        (fun m => (lineSplit m.data).tail)).flatten.filter notVarTemp
      = (is.map (fun i => dtfSkelTail i)).flatten := by
  induction is generalizing s with
  | nil => simp [dtfMethods]
  | cons i is ih =>
    simp only [dtfMethods, List.map_cons, List.flatten_cons, List.filter_append]
    rw [dtfMethodText_lines i _ (gov_no_newline s) (gov_ne_nil s)]
    rw [tail_filter_of_pos _ _ (dtfMethodLines_cons i _) (by decide)]
    rw [dtf_filter_skeleton i _]
    rw [ih]
    simp

theorem dtf_body_violLines (is : List Nat) (s : RState) :
    (((dtfMethods is s).1.map Prod.snd).map
        (fun m => (lineSplit m.data).tail)).flatten.filter (hasSub varTempPat)
      = ((dtfMethods is s).1.map (fun p => regionLines p.1)).flatten := by
  induction is generalizing s with
  | nil => simp [dtfMethods]
  | cons i is ih =>
    simp only [dtfMethods, List.map_cons, List.flatten_cons, List.filter_append]
    rw [dtfMethodText_lines i _ (gov_no_newline s) (gov_ne_nil s)]
    rw [tail_filter_of_neg _ _ (dtfMethodLines_cons i _) (by decide)]
    rw [dtf_filter_varTemp i _]
    rw [ih]

theorem act_body_sig (cn : String) (is : List Nat)
    (hnl : '\n' ∉ cn.data) (hlt : '<' ∉ cn.data) :
    (((is.map (activityMethodText cn)).map
        (fun m => (lineSplit m.data).tail)).flatten.filter (hasSub sigPat)).length
      = is.length := by
  induction is with
  | nil => simp
  | cons i is ih =>
    simp only [List.map_cons, List.flatten_cons, List.filter_append, List.length_append]
    rw [activityMethodText_lines cn i hnl]
    rw [tail_filter_of_neg _ _ (activityMethodLines_cons cn i) (by decide)]
    rw [act_filter_sig cn i hlt]
    rw [ih]
    simp
    omega

theorem act_body_random (cn : String) (is : List Nat)
    (hnl : '\n' ∉ cn.data) (hR : 'R' ∉ cn.data) :
    ((is.map (activityMethodText cn)).map
        (fun m => (lineSplit m.data).tail)).flatten.filter (hasSub randomPat)
      = List.replicate is.length (("        await Task.Delay(Random.Shared.Next(10, 100));").data) := by
  induction is with
  | nil => simp
  | cons i is ih =>
    simp only [List.map_cons, List.flatten_cons, List.filter_append, List.length_cons]
    rw [activityMethodText_lines cn i hnl]
    rw [tail_filter_of_neg _ _ (activityMethodLines_cons cn i) (by decide)]
    rw [act_filter_random cn i hR]
    rw [ih]
    simp [List.replicate_succ]

-- ### Whole-class content lemmas

theorem two_part_no_pat (A x : String) (pat : List Char) (c : Char)
    (hc : c ∈ pat) (hA : c ∉ A.data) (hx : c ∉ x.data) :
    hasSub pat (A.data ++ x.data) = false := by
  apply hasSub_char_missing _ _ c hc
  intro hmem
  rcases List.mem_append.mp hmem with h | h
  · exact hA h
  · exact hx h

theorem orchMethods_heads (cn : String) (is : List Nat) (s : RState) :
    ∀ m ∈ (orchMethods cn is s).1.map Prod.snd, ∃ r, m.data = '\n' :: r := by
  intro m hm
  obtain ⟨p, hp, rfl⟩ := List.mem_map.mp hm
  obtain ⟨i, _, _, _, _, _, _, he⟩ := orchMethods_pairs cn is s p hp
  rw [he]
  exact orchMethodText_head cn i _

theorem dtfMethods_heads (is : List Nat) (s : RState) :
    ∀ m ∈ (dtfMethods is s).1.map Prod.snd, ∃ r, m.data = '\n' :: r := by
  intro m hm
  obtain ⟨p, hp, rfl⟩ := List.mem_map.mp hm
  obtain ⟨i, _, _, _, _, _, _, he⟩ := dtfMethods_pairs is s p hp
  rw [he]
  exact dtfMethodText_head i _

theorem actMethods_heads (cn : String) (is : List Nat) :
    ∀ m ∈ is.map (activityMethodText cn), ∃ r, m.data = '\n' :: r := by
  intro m hm
  obtain ⟨i, _, rfl⟩ := List.mem_map.mp hm
  exact activityMethodText_head cn i

theorem generate_orchestrator_content (ns cn : String) (mc : Nat) (s : RState) :
    (generate_orchestrator ns cn mc s).1
      = azureOrchClassText ns cn (strJoin ((orchMethods cn (List.range mc) s).1.map Prod.snd)) :=
  rfl

theorem generate_dtf_orchestrator_content (ns cn : String) (mc : Nat) (s : RState) :
    (generate_dtf_orchestrator ns cn mc s).1
      = dtfClassText ns cn (strJoin ((dtfMethods (List.range mc) s).1.map Prod.snd)) :=
  rfl

theorem generate_activity_content (ns cn : String) (mc : Nat) :
    generate_activity ns cn mc
      = activityClassText ns cn (strJoin ((List.range mc).map (activityMethodText cn))) :=
  rfl

theorem generate_orchestrator_sigCount (ns cn : String) (mc : Nat) (s : RState)
    (hns1 : '\n' ∉ ns.data) (hns2 : '<' ∉ ns.data)
    (hcn1 : '\n' ∉ cn.data) (hcn2 : '<' ∉ cn.data) :
    methodSigCount (generate_orchestrator ns cn mc s).1 = mc := by
  rw [generate_orchestrator_content]
  unfold methodSigCount linesOf
  rw [azureOrchClassText_lines ns cn _ hns1 hcn1 (orchMethods_heads cn (List.range mc) s)]
  rw [List.filter_append, List.filter_append]
  rw [List.filter_cons_of_neg (by decide), List.filter_cons_of_neg (by decide),
    List.filter_cons_of_neg (by decide), List.filter_cons_of_neg (by decide),
    List.filter_cons_of_neg (by decide), List.filter_cons_of_neg (by decide),
    List.filter_cons_of_neg (by decide), List.filter_cons_of_neg (by decide),
    List.filter_cons_of_neg (by decide), List.filter_cons_of_neg (by decide),
    List.filter_cons_of_neg (by
      rw [two_part_no_pat ("namespace ") ns sigPat '<' (by decide) (by decide) hns2]; simp),
    List.filter_cons_of_neg (by decide),
    List.filter_cons_of_neg (by
      rw [two_part_no_pat ("    public class ") cn sigPat '<' (by decide) (by decide) hcn2]
      simp),
    List.filter_cons_of_neg (by decide), List.filter_nil]
  rw [List.filter_cons_of_neg (by decide), List.filter_cons_of_neg (by decide),
    List.filter_cons_of_neg (by decide), List.filter_nil]
  simp only [List.nil_append, List.append_nil, List.length_append]
  rw [orch_body_sig cn (List.range mc) s hcn1 hcn2]
  simp

theorem generate_dtf_orchestrator_sigCount (ns cn : String) (mc : Nat) (s : RState)
    (hns1 : '\n' ∉ ns.data) (hns2 : '<' ∉ ns.data)
    (hcn1 : '\n' ∉ cn.data) (hcn2 : '<' ∉ cn.data) :
    methodSigCount (generate_dtf_orchestrator ns cn mc s).1 = mc := by
  rw [generate_dtf_orchestrator_content]
  unfold methodSigCount linesOf
  rw [dtfClassText_lines ns cn _ hns1 hcn1 (dtfMethods_heads (List.range mc) s)]
  rw [List.filter_append, List.filter_append]
  rw [List.filter_cons_of_neg (by decide), List.filter_cons_of_neg (by decide),
    List.filter_cons_of_neg (by decide), List.filter_cons_of_neg (by decide),
    List.filter_cons_of_neg (by decide), List.filter_cons_of_neg (by decide),
    List.filter_cons_of_neg (by decide), List.filter_cons_of_neg (by decide),
    List.filter_cons_of_neg (by
      rw [two_part_no_pat ("namespace ") ns sigPat '<' (by decide) (by decide) hns2]; simp),
    List.filter_cons_of_neg (by decide),
    List.filter_cons_of_neg (by
      rw [two_part_no_pat ("    public class ") cn sigPat '<' (by decide) (by decide) hcn2]
      simp),
    List.filter_cons_of_neg (by decide), List.filter_nil]
  rw [List.filter_cons_of_neg (by decide), List.filter_cons_of_neg (by decide),
    List.filter_cons_of_neg (by decide), List.filter_nil]
  simp only [List.nil_append, List.append_nil, List.length_append]
  rw [dtf_body_sig (List.range mc) s]
  simp

theorem generate_activity_sigCount (ns cn : String) (mc : Nat)
    (hns1 : '\n' ∉ ns.data) (hns2 : '<' ∉ ns.data)
    (hcn1 : '\n' ∉ cn.data) (hcn2 : '<' ∉ cn.data) :
    methodSigCount (generate_activity ns cn mc) = mc := by
  rw [generate_activity_content]
  unfold methodSigCount linesOf
  rw [activityClassText_lines ns cn _ hns1 hcn1 (actMethods_heads cn (List.range mc))]
  rw [List.filter_append, List.filter_append]
  rw [List.filter_cons_of_neg (by decide), List.filter_cons_of_neg (by decide),
    List.filter_cons_of_neg (by decide), List.filter_cons_of_neg (by decide),
    List.filter_cons_of_neg (by decide), List.filter_cons_of_neg (by decide),
    List.filter_cons_of_neg (by decide),
    List.filter_cons_of_neg (by
      rw [two_part_no_pat ("namespace ") ns sigPat '<' (by decide) (by decide) hns2]; simp),
    List.filter_cons_of_neg (by decide),
    List.filter_cons_of_neg (by
      rw [two_part_no_pat ("    public class ") cn sigPat '<' (by decide) (by decide) hcn2]
      simp),
    List.filter_cons_of_neg (by decide), List.filter_nil]
  rw [List.filter_cons_of_neg (by decide), List.filter_cons_of_neg (by decide),
    List.filter_cons_of_neg (by decide), List.filter_nil]
  simp only [List.nil_append, List.append_nil, List.length_append]
  rw [act_body_sig cn (List.range mc) hcn1 hcn2]
  simp

/-- The run-independent skeleton of a generated Azure orchestrator class. -/
def azureOrchSkeleton (ns cn : String) (mc : Nat) : List (List Char) :=
  ([[], ("using System;").data, ("using System.IO;").data, ("using System.Net.Http;").data,
    ("using System.Threading;").data, ("using System.Threading.Tasks;").data,
    ("using Microsoft.Azure.WebJobs;").data,
    ("using Microsoft.Azure.WebJobs.Extensions.DurableTask;").data,
    ("using Microsoft.Extensions.Logging;").data, [],
    ("namespace ").data ++ ns.data, ("\x7b").data,
    ("    public class ").data ++ cn.data, ("    \x7b").data]
  ++ ((List.range mc).map (fun i => orchSkelTail cn i)).flatten)
  ++ [("    \x7d").data, ("\x7d").data, []]

/-- The run-independent skeleton of a generated DTF orchestrator class. -/
def dtfSkeleton (ns cn : String) (mc : Nat) : List (List Char) :=
  ([[], ("using System;").data, ("using System.IO;").data, ("using System.Net.Http;").data,
    ("using System.Threading;").data, ("using System.Threading.Tasks;").data,
    ("using Microsoft.DurableTask;").data, [],
    ("namespace ").data ++ ns.data, ("\x7b").data,
    ("    public class ").data ++ cn.data, ("    \x7b").data]
  ++ ((List.range mc).map (fun i => dtfSkelTail i)).flatten)
  ++ [("    \x7d").data, ("\x7d").data, []]

theorem generate_orchestrator_skeleton (ns cn : String) (mc : Nat) (s : RState)
    (hns1 : '\n' ∉ ns.data) (hnsv : 'v' ∉ ns.data)
    (hcn1 : '\n' ∉ cn.data) (hcnv : 'v' ∉ cn.data) :
    skeletonOf (generate_orchestrator ns cn mc s).1 = azureOrchSkeleton ns cn mc := by
  rw [generate_orchestrator_content]
  unfold skeletonOf linesOf
  rw [azureOrchClassText_lines ns cn _ hns1 hcn1 (orchMethods_heads cn (List.range mc) s)]
  rw [List.filter_append, List.filter_append]
  rw [List.filter_cons_of_pos (by decide), List.filter_cons_of_pos (by decide),
    List.filter_cons_of_pos (by decide), List.filter_cons_of_pos (by decide),
    List.filter_cons_of_pos (by decide), List.filter_cons_of_pos (by decide),
    List.filter_cons_of_pos (by decide), List.filter_cons_of_pos (by decide),
    List.filter_cons_of_pos (by decide), List.filter_cons_of_pos (by decide),
    List.filter_cons_of_pos (by
      unfold notVarTemp
      rw [two_part_no_pat ("namespace ") ns varTempPat 'v' (by decide) (by decide) hnsv]
      rfl),
    List.filter_cons_of_pos (by decide),
    List.filter_cons_of_pos (by
      unfold notVarTemp
      rw [two_part_no_pat ("    public class ") cn varTempPat 'v' (by decide) (by decide) hcnv]
      rfl),
    List.filter_cons_of_pos (by decide), List.filter_nil]
  rw [List.filter_cons_of_pos (by decide), List.filter_cons_of_pos (by decide),
    List.filter_cons_of_pos (by decide), List.filter_nil]
  rw [orch_body_skeleton cn (List.range mc) s hcn1 hcnv]
  simp [azureOrchSkeleton]

theorem generate_dtf_orchestrator_skeleton (ns cn : String) (mc : Nat) (s : RState)
    (hns1 : '\n' ∉ ns.data) (hnsv : 'v' ∉ ns.data)
    (hcn1 : '\n' ∉ cn.data) (hcnv : 'v' ∉ cn.data) :
    skeletonOf (generate_dtf_orchestrator ns cn mc s).1 = dtfSkeleton ns cn mc := by
  rw [generate_dtf_orchestrator_content]
  unfold skeletonOf linesOf
  rw [dtfClassText_lines ns cn _ hns1 hcn1 (dtfMethods_heads (List.range mc) s)]
  rw [List.filter_append, List.filter_append]
  rw [List.filter_cons_of_pos (by decide), List.filter_cons_of_pos (by decide),
    List.filter_cons_of_pos (by decide), List.filter_cons_of_pos (by decide),
    List.filter_cons_of_pos (by decide), List.filter_cons_of_pos (by decide),
    List.filter_cons_of_pos (by decide), List.filter_cons_of_pos (by decide),
    List.filter_cons_of_pos (by
      unfold notVarTemp
      rw [two_part_no_pat ("namespace ") ns varTempPat 'v' (by decide) (by decide) hnsv]
      rfl),
    List.filter_cons_of_pos (by decide),
    List.filter_cons_of_pos (by
      unfold notVarTemp
      rw [two_part_no_pat ("    public class ") cn varTempPat 'v' (by decide) (by decide) hcnv]
      rfl),
    List.filter_cons_of_pos (by decide), List.filter_nil]
  rw [List.filter_cons_of_pos (by decide), List.filter_cons_of_pos (by decide),
    List.filter_cons_of_pos (by decide), List.filter_nil]
  rw [dtf_body_skeleton (List.range mc) s]
  simp [dtfSkeleton]

theorem generate_orchestrator_violLines (ns cn : String) (mc : Nat) (s : RState)
    (hns1 : '\n' ∉ ns.data) (hnsv : 'v' ∉ ns.data)
    (hcn1 : '\n' ∉ cn.data) (hcnv : 'v' ∉ cn.data) :
    ∀ l ∈ violLinesOf (generate_orchestrator ns cn mc s).1,
      ∃ m v, m < 4 ∧ v ∈ violationsCatalog ∧
        l = ("        ").data ++ ("var temp" ++ natToStr m ++ " = " ++ v ++ ";").data := by
  rw [generate_orchestrator_content]
  unfold violLinesOf linesOf
  rw [azureOrchClassText_lines ns cn _ hns1 hcn1 (orchMethods_heads cn (List.range mc) s)]
  rw [List.filter_append, List.filter_append]
  rw [List.filter_cons_of_neg (by decide), List.filter_cons_of_neg (by decide),
    List.filter_cons_of_neg (by decide), List.filter_cons_of_neg (by decide),
    List.filter_cons_of_neg (by decide), List.filter_cons_of_neg (by decide),
    List.filter_cons_of_neg (by decide), List.filter_cons_of_neg (by decide),
    List.filter_cons_of_neg (by decide), List.filter_cons_of_neg (by decide),
    List.filter_cons_of_neg (by
      rw [two_part_no_pat ("namespace ") ns varTempPat 'v' (by decide) (by decide) hnsv]
      simp),
    List.filter_cons_of_neg (by decide),
    List.filter_cons_of_neg (by
      rw [two_part_no_pat ("    public class ") cn varTempPat 'v' (by decide) (by decide) hcnv]
      simp),
    List.filter_cons_of_neg (by decide), List.filter_nil]
  rw [List.filter_cons_of_neg (by decide), List.filter_cons_of_neg (by decide),
    List.filter_cons_of_neg (by decide), List.filter_nil]
  rw [orch_body_violLines cn (List.range mc) s hcn1 hcnv]
  intro l hl
  simp only [List.nil_append, List.append_nil, List.mem_flatten, List.mem_map] at hl
  obtain ⟨L, ⟨p, hp, rfl⟩, hlL⟩ := hl
  obtain ⟨a, ha, rfl⟩ := List.mem_map.mp hlL
  obtain ⟨i, _, _, h4, _, hcat, _, _⟩ := orchMethods_pairs cn (List.range mc) s p hp
  obtain ⟨m, v, hm, hv, he⟩ := assignLines_shape p.1 a ha
  exact ⟨m, v, by omega, hcat v hv, by rw [he]⟩

theorem generate_dtf_orchestrator_violLines (ns cn : String) (mc : Nat) (s : RState)
    (hns1 : '\n' ∉ ns.data) (hnsv : 'v' ∉ ns.data)
    (hcn1 : '\n' ∉ cn.data) (hcnv : 'v' ∉ cn.data) :
    ∀ l ∈ violLinesOf (generate_dtf_orchestrator ns cn mc s).1,
      ∃ m v, m < 4 ∧ v ∈ violationsCatalog ∧
        l = ("        ").data ++ ("var temp" ++ natToStr m ++ " = " ++ v ++ ";").data := by
  rw [generate_dtf_orchestrator_content]
  unfold violLinesOf linesOf
  rw [dtfClassText_lines ns cn _ hns1 hcn1 (dtfMethods_heads (List.range mc) s)]
  rw [List.filter_append, List.filter_append]
  rw [List.filter_cons_of_neg (by decide), List.filter_cons_of_neg (by decide),
    List.filter_cons_of_neg (by decide), List.filter_cons_of_neg (by decide),
    List.filter_cons_of_neg (by decide), List.filter_cons_of_neg (by decide),
    List.filter_cons_of_neg (by decide), List.filter_cons_of_neg (by decide),
    List.filter_cons_of_neg (by
      rw [two_part_no_pat ("namespace ") ns varTempPat 'v' (by decide) (by decide) hnsv]
      simp),
    List.filter_cons_of_neg (by decide),
    List.filter_cons_of_neg (by
      rw [two_part_no_pat ("    public class ") cn varTempPat 'v' (by decide) (by decide) hcnv]
      simp),
    List.filter_cons_of_neg (by decide), List.filter_nil]
  rw [List.filter_cons_of_neg (by decide), List.filter_cons_of_neg (by decide),
    List.filter_cons_of_neg (by decide), List.filter_nil]
  rw [dtf_body_violLines (List.range mc) s]
  intro l hl
  simp only [List.nil_append, List.append_nil, List.mem_flatten, List.mem_map] at hl
  obtain ⟨L, ⟨p, hp, rfl⟩, hlL⟩ := hl
  obtain ⟨a, ha, rfl⟩ := List.mem_map.mp hlL
  obtain ⟨i, _, _, h4, _, hcat, _, _⟩ := dtfMethods_pairs (List.range mc) s p hp
  obtain ⟨m, v, hm, hv, he⟩ := assignLines_shape p.1 a ha
  exact ⟨m, v, by omega, hcat v hv, by rw [he]⟩

theorem generate_activity_randomLines (ns cn : String) (mc : Nat)
    (hns1 : '\n' ∉ ns.data) (hnsR : 'R' ∉ ns.data)
    (hcn1 : '\n' ∉ cn.data) (hcnR : 'R' ∉ cn.data) :
    randomLinesOf (generate_activity ns cn mc) =
      List.replicate mc (("        await Task.Delay(Random.Shared.Next(10, 100));").data) := by
  rw [generate_activity_content]
  unfold randomLinesOf linesOf
  rw [activityClassText_lines ns cn _ hns1 hcn1 (actMethods_heads cn (List.range mc))]
  rw [List.filter_append, List.filter_append]
  rw [List.filter_cons_of_neg (by decide), List.filter_cons_of_neg (by decide),
    List.filter_cons_of_neg (by decide), List.filter_cons_of_neg (by decide),
    List.filter_cons_of_neg (by decide), List.filter_cons_of_neg (by decide),
    List.filter_cons_of_neg (by decide),
    List.filter_cons_of_neg (by
      rw [two_part_no_pat ("namespace ") ns randomPat 'R' (by decide) (by decide) hnsR]
      simp),
    List.filter_cons_of_neg (by decide),
    List.filter_cons_of_neg (by
      rw [two_part_no_pat ("    public class ") cn randomPat 'R' (by decide) (by decide) hcnR]
      simp),
    List.filter_cons_of_neg (by decide), List.filter_nil]
  rw [List.filter_cons_of_neg (by decide), List.filter_cons_of_neg (by decide),
    List.filter_cons_of_neg (by decide), List.filter_nil]
  rw [act_body_random cn (List.range mc) hcn1 hcnR]
  simp

-- ### Character facts for the names used by `main`

theorem append_natToStr_not_mem (A : String) (n : Nat) (ch : Char)
    (hA : ch ∉ A.data) (hd : ch.toNat < 48 ∨ 57 < ch.toNat) :
    ch ∉ (A ++ natToStr n).data := by
  simp only [String.data_append, List.mem_append, not_or]
  exact ⟨hA, natToStr_not_mem n ch hd⟩

theorem append_pad3_not_mem (A : String) (n : Nat) (ch : Char)
    (hA : ch ∉ A.data) (hd : ch.toNat < 48 ∨ 57 < ch.toNat) :
    ch ∉ (A ++ pad3 n).data := by
  simp only [String.data_append, List.mem_append, not_or]
  refine ⟨hA, fun hmem => ?_⟩
  obtain ⟨h1, h2⟩ := pad3_mem_toNat n ch hmem
  rcases hd with h | h <;> omega

theorem azureOrchNamespace_not_mem (i : Nat) (ch : Char)
    (hA : ch ∉ ("Performance.Azure.Batch").data) (hd : ch.toNat < 48 ∨ 57 < ch.toNat) :
    ch ∉ (azureOrchNamespace i).data :=
  append_natToStr_not_mem _ _ _ hA hd

theorem azureOrchClassName_not_mem (i : Nat) (ch : Char)
    (hA : ch ∉ ("TestOrchestrator").data) (hd : ch.toNat < 48 ∨ 57 < ch.toNat) :
    ch ∉ (azureOrchClassName i).data :=
  append_pad3_not_mem _ _ _ hA hd

theorem azureActNamespace_not_mem (i : Nat) (ch : Char)
    (hA : ch ∉ ("Performance.Azure.Activities.Batch").data) (hd : ch.toNat < 48 ∨ 57 < ch.toNat) :
    ch ∉ (azureActNamespace i).data :=
  append_natToStr_not_mem _ _ _ hA hd

theorem azureActClassName_not_mem (i : Nat) (ch : Char)
    (hA : ch ∉ ("TestActivity").data) (hd : ch.toNat < 48 ∨ 57 < ch.toNat) :
    ch ∉ (azureActClassName i).data :=
  append_pad3_not_mem _ _ _ hA hd

theorem dtfNamespace_not_mem (i : Nat) (ch : Char)
    (hA : ch ∉ ("Performance.DTF.Batch").data) (hd : ch.toNat < 48 ∨ 57 < ch.toNat) :
    ch ∉ (dtfNamespace i).data :=
  append_natToStr_not_mem _ _ _ hA hd

theorem dtfClassName_not_mem (i : Nat) (ch : Char)
    (hA : ch ∉ ("DtfOrchestrator").data) (hd : ch.toNat < 48 ∨ 57 < ch.toNat) :
    ch ∉ (dtfClassName i).data :=
  append_pad3_not_mem _ _ _ hA hd

-- ### The three `main` loops: lengths, names, contents, method totals

theorem azureOrchFiles_length (is : List Nat) (s : RState) :
    (azureOrchFiles is s).1.length = is.length := by
  induction is generalizing s with
  | nil => simp [azureOrchFiles]
  | cons i is ih => simp [azureOrchFiles, ih]

theorem dtfFiles_length (is : List Nat) (s : RState) :
    (dtfFiles is s).1.length = is.length := by
  induction is generalizing s with
  | nil => simp [dtfFiles]
  | cons i is ih => simp [dtfFiles, ih]

theorem azureActFiles_length (is : List Nat) : (azureActFiles is).length = is.length := by
  simp [azureActFiles]

theorem azureOrchFiles_names (is : List Nat) (s : RState) :
    (azureOrchFiles is s).1.map Prod.fst = is.map azureOrchFileName := by
  induction is generalizing s with
  | nil => simp [azureOrchFiles]
  | cons i is ih => simp [azureOrchFiles, ih]

theorem dtfFiles_names (is : List Nat) (s : RState) :
    (dtfFiles is s).1.map Prod.fst = is.map dtfFileName := by
  induction is generalizing s with
  | nil => simp [dtfFiles]
  | cons i is ih => simp [dtfFiles, ih]

theorem azureActFiles_names (is : List Nat) :
    (azureActFiles is).map Prod.fst = is.map azureActFileName := by
  simp [azureActFiles]

theorem azureOrchFiles_getD (is : List Nat) (s : RState) (j : Nat) (hj : j < is.length) :
    ∃ s', (azureOrchFiles is s).1.getD j ("", "")
      = (azureOrchFileName (is.getD j 0),
         (generate_orchestrator (azureOrchNamespace (is.getD j 0))
           (azureOrchClassName (is.getD j 0)) 8 s').1) := by
  induction is generalizing s j with
  | nil => simp at hj
  | cons i is ih =>
    cases j with
    | zero => exact ⟨s, by simp [azureOrchFiles]⟩
    | succ j =>
      obtain ⟨s', hs'⟩ := ih _ j (by simpa using hj)
      exact ⟨s', by simpa [azureOrchFiles] using hs'⟩

theorem dtfFiles_getD (is : List Nat) (s : RState) (j : Nat) (hj : j < is.length) :
    ∃ s', (dtfFiles is s).1.getD j ("", "")
      = (dtfFileName (is.getD j 0),
         (generate_dtf_orchestrator (dtfNamespace (is.getD j 0))
           (dtfClassName (is.getD j 0)) 6 s').1) := by
  induction is generalizing s j with
  | nil => simp at hj
  | cons i is ih =>
    cases j with
    | zero => exact ⟨s, by simp [dtfFiles]⟩
    | succ j =>
      obtain ⟨s', hs'⟩ := ih _ j (by simpa using hj)
      exact ⟨s', by simpa [dtfFiles] using hs'⟩

theorem azureActFiles_getD (is : List Nat) (j : Nat) (hj : j < is.length) :
    (azureActFiles is).getD j ("", "")
      = (azureActFileName (is.getD j 0),
         generate_activity (azureActNamespace (is.getD j 0)) (azureActClassName (is.getD j 0)) 5) := by
  induction is generalizing j with
  | nil => simp at hj
  | cons i is ih =>
    cases j with
    | zero => rfl
    | succ j => simpa [azureActFiles] using ih j (by simpa using hj)

theorem azureOrchFiles_sig_sum (is : List Nat) (s : RState) :
    (((azureOrchFiles is s).1).map (fun f => methodSigCount f.2)).sum = 8 * is.length := by
  induction is generalizing s with
  | nil => simp [azureOrchFiles]
  | cons i is ih =>
    simp only [azureOrchFiles, List.map_cons, List.sum_cons]
    rw [generate_orchestrator_sigCount _ _ _ _
      (azureOrchNamespace_not_mem i '\n' (by decide) (by decide))
      (azureOrchNamespace_not_mem i '<' (by decide) (by decide))
      (azureOrchClassName_not_mem i '\n' (by decide) (by decide))
      (azureOrchClassName_not_mem i '<' (by decide) (by decide))]
    rw [ih]
    simp [List.length_cons]
    omega

theorem dtfFiles_sig_sum (is : List Nat) (s : RState) :
    (((dtfFiles is s).1).map (fun f => methodSigCount f.2)).sum = 6 * is.length := by
  induction is generalizing s with
  | nil => simp [dtfFiles]
  | cons i is ih =>
    simp only [dtfFiles, List.map_cons, List.sum_cons]
    rw [generate_dtf_orchestrator_sigCount _ _ _ _
      (dtfNamespace_not_mem i '\n' (by decide) (by decide))
      (dtfNamespace_not_mem i '<' (by decide) (by decide))
      (dtfClassName_not_mem i '\n' (by decide) (by decide))
      (dtfClassName_not_mem i '<' (by decide) (by decide))]
    rw [ih]
    simp [List.length_cons]
    omega

theorem azureActFiles_sig_sum (is : List Nat) :
    ((azureActFiles is).map (fun f => methodSigCount f.2)).sum = 5 * is.length := by
  induction is with
  | nil => simp [azureActFiles]
  | cons i is ih =>
    simp only [azureActFiles, List.map_cons, List.sum_cons] at ih ⊢
    rw [generate_activity_sigCount _ _ _
      (azureActNamespace_not_mem i '\n' (by decide) (by decide))
      (azureActNamespace_not_mem i '<' (by decide) (by decide))
      (azureActClassName_not_mem i '\n' (by decide) (by decide))
      (azureActClassName_not_mem i '<' (by decide) (by decide))]
    rw [ih]
    simp [List.length_cons]
    omega

-- ### Access to the files `main` writes, by write position

theorem getD_append_left {α} (A B : List α) (i : Nat) (d : α) (h : i < A.length) :
    (A ++ B).getD i d = A.getD i d := by
  simp [List.getD_eq_getElem?_getD, List.getElem?_append, h]

theorem getD_append_right' {α} (A B : List α) (i : Nat) (d : α) (h : A.length ≤ i) :
    (A ++ B).getD i d = B.getD (i - A.length) d := by
  simp [List.getD_eq_getElem?_getD, List.getElem?_append_right h]

theorem range_getD (n i : Nat) (h : i < n) : (List.range n).getD i 0 = i := by
  rw [List.getD_eq_getElem?_getD, List.getElem?_eq_getElem (by simpa using h)]
  simp

theorem mainOutput_files_decomp (s : RState) :
    (mainOutput s).1.files
      = ((azureOrchFiles (List.range 50) s).1 ++ azureActFiles (List.range 30))
          ++ (dtfFiles (List.range 25) (azureOrchFiles (List.range 50) s).2).1 :=
  rfl

theorem mainOutput_files_length (s : RState) : (mainOutput s).1.files.length = 105 := by
  rw [mainOutput_files_decomp]
  simp [azureOrchFiles_length, azureActFiles_length, dtfFiles_length]

theorem mainOutput_getD_orch (s : RState) (i : Nat) (hi : i < 50) :
    ∃ s', (mainOutput s).1.files.getD i ("", "")
      = (azureOrchFileName i,
         (generate_orchestrator (azureOrchNamespace i) (azureOrchClassName i) 8 s').1) := by
  obtain ⟨s', hs'⟩ := azureOrchFiles_getD (List.range 50) s i (by rw [List.length_range]; exact hi)
  refine ⟨s', ?_⟩
  rw [mainOutput_files_decomp,
    getD_append_left _ _ _ _ (by
      rw [List.length_append, azureOrchFiles_length, azureActFiles_length,
        List.length_range, List.length_range]
      omega),
    getD_append_left _ _ _ _ (by rw [azureOrchFiles_length, List.length_range]; exact hi),
    hs', range_getD 50 i hi]

theorem mainOutput_getD_act (s : RState) (i : Nat) (hi : i < 30) :
    (mainOutput s).1.files.getD (50 + i) ("", "")
      = (azureActFileName i,
         generate_activity (azureActNamespace i) (azureActClassName i) 5) := by
  rw [mainOutput_files_decomp,
    getD_append_left _ _ _ _ (by
      rw [List.length_append, azureOrchFiles_length, azureActFiles_length,
        List.length_range, List.length_range]
      omega),
    getD_append_right' _ _ _ _ (by rw [azureOrchFiles_length, List.length_range]; omega)]
  rw [azureOrchFiles_length, List.length_range]
  have he : 50 + i - 50 = i := by omega
  rw [he, azureActFiles_getD (List.range 30) i (by rw [List.length_range]; exact hi),
    range_getD 30 i hi]

theorem mainOutput_getD_dtf (s : RState) (i : Nat) (hi : i < 25) :
    ∃ s', (mainOutput s).1.files.getD (80 + i) ("", "")
      = (dtfFileName i,
         (generate_dtf_orchestrator (dtfNamespace i) (dtfClassName i) 6 s').1) := by
  obtain ⟨s', hs'⟩ := dtfFiles_getD (List.range 25) ((azureOrchFiles (List.range 50) s).2) i
    (by rw [List.length_range]; exact hi)
  refine ⟨s', ?_⟩
  rw [mainOutput_files_decomp,
    getD_append_right' _ _ _ _ (by
      rw [List.length_append, azureOrchFiles_length, azureActFiles_length,
        List.length_range, List.length_range]
      omega)]
  rw [List.length_append, azureOrchFiles_length, azureActFiles_length,
    List.length_range, List.length_range]
  have he : 80 + i - (50 + 30) = i := by omega
  rw [he, hs', range_getD 25 i hi]

-- ## The claims

/-- C1: every method generated for an orchestrator-style class (Azure or DTF
profile) carries a sampled violation list drawn from the fixed 10-entry catalog
without replacement: its size is between 1 and 4, its elements are pairwise
distinct members of the catalog, and its size never exceeds the catalog size. -/
theorem claim_c1 (cn : String) (mc : Nat) (s : RState) (p : List String × String)
    (hp : p ∈ (orchMethods cn (List.range mc) s).1 ∨ p ∈ (dtfMethods (List.range mc) s).1) :
    1 ≤ p.1.length ∧ p.1.length ≤ 4 ∧ p.1.Nodup ∧
      (∀ v ∈ p.1, v ∈ violationsCatalog) ∧ p.1.length ≤ violationsCatalog.length := by
  rcases hp with h | h
  · obtain ⟨i, _, h1, h4, hnd, hcat, hle, _⟩ := orchMethods_pairs cn (List.range mc) s p h
    exact ⟨h1, h4, hnd, hcat, hle⟩
  · obtain ⟨i, _, h1, h4, hnd, hcat, hle, _⟩ := dtfMethods_pairs (List.range mc) s p h
    exact ⟨h1, h4, hnd, hcat, hle⟩

/-- Witness for C1 at a concrete class name, method count 1 and the empty
random stream, under which the sampled list is `["DateTime.Now"]`. -/
theorem claim_c1_witness :
    ((["DateTime.Now"], orchMethodText "C" 0 (violationCode ["DateTime.Now"]))
        ∈ (orchMethods "C" (List.range 1) []).1 ∨
      (["DateTime.Now"], orchMethodText "C" 0 (violationCode ["DateTime.Now"]))
        ∈ (dtfMethods (List.range 1) []).1) ∧
    (1 ≤ (["DateTime.Now"] : List String).length ∧
      (["DateTime.Now"] : List String).length ≤ 4 ∧
      (["DateTime.Now"] : List String).Nodup ∧
      (∀ v ∈ (["DateTime.Now"] : List String), v ∈ violationsCatalog) ∧
      (["DateTime.Now"] : List String).length ≤ violationsCatalog.length) :=
  ⟨Or.inl (by decide),
   claim_c1 "C" 1 [] (["DateTime.Now"], orchMethodText "C" 0 (violationCode ["DateTime.Now"]))
     (Or.inl (by decide))⟩

/-- C2: a run with the default constants produces exactly 105 class files
(50 Azure orchestrator, 30 Azure activity, 25 DTF orchestrator) holding exactly
700 method signatures in total, and the totals interpolated into the summary are
the closed-form products `50 + 30 + 25` and `50*8 + 30*5 + 25*6` of the
per-profile class counts and per-class method counts used at generation. -/
theorem claim_c2 (s : RState) :
    (mainOutput s).1.files.length = 105 ∧
    (azureOrchFiles (List.range 50) s).1.length = 50 ∧
    (azureActFiles (List.range 30)).length = 30 ∧
    (dtfFiles (List.range 25) (azureOrchFiles (List.range 50) s).2).1.length = 25 ∧
    ((mainOutput s).1.files.map (fun f => methodSigCount f.2)).sum = 700 ∧
    700 = 50 * 8 + 30 * 5 + 25 * 6 ∧
    total_files = 105 ∧ total_methods = 700 ∧
    (mainOutput s).1.summaryContent = summaryTemplate total_files total_methods := by
  refine ⟨mainOutput_files_length s,
    by rw [azureOrchFiles_length, List.length_range],
    by rw [azureActFiles_length, List.length_range],
    by rw [dtfFiles_length, List.length_range], ?_, by norm_num, by decide, by decide, rfl⟩
  rw [mainOutput_files_decomp]
  simp only [List.map_append, List.sum_append]
  rw [azureOrchFiles_sig_sum, azureActFiles_sig_sum, dtfFiles_sig_sum]
  simp [List.length_range]

/-- C3: the expected-violation range reported in the summary and on stdout is
the literal range 2200–2750, equal to 4×550 and 5×550 for the 550 = 50×8 + 25×6
orchestrator methods; it is a constant of the generation parameters and does not
depend on the random stream (it is not measured from the generated output). -/
theorem claim_c3 (s s' : RState) :
    (mainOutput s).1.summaryContent = (mainOutput s').1.summaryContent ∧
    (mainOutput s).1.stdout = (mainOutput s').1.stdout ∧
    (mainOutput s).1.summaryContent = summaryTemplate total_files total_methods ∧
    hasSub ("~2200-2750").data (summaryTemplate total_files total_methods).data = true ∧
    hasSub ("Expected analyzer violations: ~2200-2750 (4-5 violations per orchestrator method)").data
      (summaryTemplate total_files total_methods).data = true ∧
    (mainOutput s).1.stdout.getD 1 "" = "Expected ~2200-2750 analyzer violations to process" ∧
    2200 = 4 * (50 * 8 + 25 * 6) ∧ 2750 = 5 * (50 * 8 + 25 * 6) ∧ 50 * 8 + 25 * 6 = 550 := by
  have hsplit : (summaryTemplate total_files total_methods).data
      = ("\n// PERFORMANCE TEST CODEBASE SUMMARY\n// Generated 105 files with 700 total methods\n//\n// Azure Functions Orchestrators: 50 classes \u00d7 8 methods = 400 orchestrator methods\n// Azure Functions Activities: 30 classes \u00d7 5 methods = 150 activity methods  \n// DTF Core Orchestrators: 25 classes \u00d7 6 methods = 150 orchestrator methods\n//\n// Total orchestrator methods: 550 (should trigger analyzer rules)\n// Total activity methods: 150 (should not trigger analyzer rules)\n// ").data
        ++ ("Expected analyzer violations: ~2200-2750 (4-5 violations per orchestrator method)").data
        ++ ("\n").data := by rfl
  have hsplit2 : ("Expected analyzer violations: ~2200-2750 (4-5 violations per orchestrator method)").data
      = ("Expected analyzer violations: ").data ++ ("~2200-2750").data
        ++ (" (4-5 violations per orchestrator method)").data := by rfl
  have hsc : ∀ t : RState,
      (mainOutput t).1.summaryContent = summaryTemplate total_files total_methods :=
    fun t => rfl
  have hout : ∀ t : RState, (mainOutput t).1.stdout =
      ["Generated " ++ natToStr total_files ++ " files with " ++ natToStr total_methods ++
         " total methods",
       "Expected ~2200-2750 analyzer violations to process"] :=
    fun t => rfl
  refine ⟨(hsc s).trans (hsc s').symm, (hout s).trans (hout s').symm, hsc s, ?_, ?_,
    by rw [hout s]; rfl, by norm_num, by norm_num, by norm_num⟩
  · rw [hsplit]
    apply hasSub_append_left
    apply hasSub_append_right
    rw [hsplit2]
    apply hasSub_append_left
    apply hasSub_append_right
    decide
  · rw [hsplit]
    apply hasSub_append_left
    apply hasSub_append_right
    decide

-- ### Shared helpers for the remaining claims

theorem temp_name_inj : Function.Injective (fun j : Nat => ("temp" ++ natToStr j : String)) := by
  intro a b h
  have hd := congrArg String.data h
  simp only [String.data_append] at hd
  exact natDigits_injective (List.append_cancel_left hd)

theorem mainOutput_names (s : RState) :
    (mainOutput s).1.files.map Prod.fst
      = (List.range 50).map azureOrchFileName ++ (List.range 30).map azureActFileName
        ++ (List.range 25).map dtfFileName := by
  rw [mainOutput_files_decomp]
  simp [azureOrchFiles_names, azureActFiles_names, dtfFiles_names]

theorem mainOutput_act_slice (s : RState) :
    ((mainOutput s).1.files.drop 50).take 30 = azureActFiles (List.range 30) := by
  rw [mainOutput_files_decomp, List.append_assoc,
    List.drop_left' (by rw [azureOrchFiles_length, List.length_range]),
    List.take_left' (by rw [azureActFiles_length, List.length_range])]

theorem mainOutput_summaryName (t : RState) :
    (mainOutput t).1.summaryName = "CodebaseSummary.txt" := rfl

theorem mainOutput_summaryContent (t : RState) :
    (mainOutput t).1.summaryContent = summaryTemplate total_files total_methods := rfl

theorem mainOutput_stdout (t : RState) :
    (mainOutput t).1.stdout
      = ["Generated " ++ natToStr total_files ++ " files with " ++ natToStr total_methods
           ++ " total methods",
         "Expected ~2200-2750 analyzer violations to process"] := rfl

theorem mainOutput_pair (s : RState) :
    mainOutput s
      = ({ files := (azureOrchFiles (List.range 50) s).1 ++ azureActFiles (List.range 30)
              ++ (dtfFiles (List.range 25) (azureOrchFiles (List.range 50) s).2).1,
           summaryName := "CodebaseSummary.txt",
           summaryContent := summaryTemplate total_files total_methods,
           stdout := ["Generated " ++ natToStr total_files ++ " files with "
                        ++ natToStr total_methods ++ " total methods",
                      "Expected ~2200-2750 analyzer violations to process"] },
         (dtfFiles (List.range 25) (azureOrchFiles (List.range 50) s).2).2) := rfl

theorem mainOutput_state (s : RState) :
    (mainOutput s).2 = (dtfFiles (List.range 25) (azureOrchFiles (List.range 50) s).2).2 := by
  rw [mainOutput_pair]

theorem generate_orchestrator_ns_line (ns cn : String) (mc : Nat) (s : RState)
    (hns : '\n' ∉ ns.data) (hcn : '\n' ∉ cn.data) :
    ("namespace ").data ++ ns.data ∈ linesOf (generate_orchestrator ns cn mc s).1 := by
  unfold linesOf
  rw [generate_orchestrator_content,
    azureOrchClassText_lines ns cn _ hns hcn (orchMethods_heads cn (List.range mc) s)]
  simp

theorem generate_activity_ns_line (ns cn : String) (mc : Nat)
    (hns : '\n' ∉ ns.data) (hcn : '\n' ∉ cn.data) :
    ("namespace ").data ++ ns.data ∈ linesOf (generate_activity ns cn mc) := by
  unfold linesOf
  rw [generate_activity_content,
    activityClassText_lines ns cn _ hns hcn (actMethods_heads cn (List.range mc))]
  simp

theorem generate_dtf_orchestrator_ns_line (ns cn : String) (mc : Nat) (s : RState)
    (hns : '\n' ∉ ns.data) (hcn : '\n' ∉ cn.data) :
    ("namespace ").data ++ ns.data ∈ linesOf (generate_dtf_orchestrator ns cn mc s).1 := by
  unfold linesOf
  rw [generate_dtf_orchestrator_content,
    dtfClassText_lines ns cn _ hns hcn (dtfMethods_heads (List.range mc) s)]
  simp

theorem orchMethods_dtf_sync (cn : String) (is : List Nat) (s : RState) :
    (orchMethods cn is s).2 = (dtfMethods is s).2 ∧
    (orchMethods cn is s).1.map Prod.fst = (dtfMethods is s).1.map Prod.fst := by
  induction is generalizing s with
  | nil => exact ⟨rfl, rfl⟩
  | cons i is ih =>
    obtain ⟨h1, h2⟩ := ih (generate_orchestrator_violations s).2
    simp only [orchMethods, dtfMethods, List.map_cons]
    exact ⟨h1, by rw [h2]⟩

/-- C4: every emitted orchestrator-style method binds its k selected violations
to the locals `var temp0` … `var temp(k-1)` in order (names pairwise distinct),
then issues exactly two downstream activity calls — the first activity name
parameterized by the method index modulo 10, the second unparameterized — and
returns a completion marker string. -/
theorem claim_c4 (cn : String) (i : Nat) (s : RState)
    (hcn : '\n' ∉ cn.data) (hlt : '<' ∉ cn.data) :
    (assignLines (generate_orchestrator_violations s).1).length
        = (generate_orchestrator_violations s).1.length ∧
    (∀ k, k < (generate_orchestrator_violations s).1.length →
      (assignLines (generate_orchestrator_violations s).1).getD k ""
        = "var temp" ++ natToStr k ++ " = "
            ++ (generate_orchestrator_violations s).1.getD k "" ++ ";") ∧
    ((List.range (generate_orchestrator_violations s).1.length).map
        (fun j => ("temp" ++ natToStr j : String))).Nodup ∧
    callLinesOf (orchMethodText cn i (violationCode (generate_orchestrator_violations s).1))
      = [("        await context.CallActivityAsync<string>(\"Activity").data
           ++ (natToStr (i % 10)).data ++ ("\", \"data\");").data,
         ("        await context.CallActivityAsync<int>(\"CalculateActivity\", i);").data] ∧
    callLinesOf (dtfMethodText i (violationCode (generate_orchestrator_violations s).1))
      = [("        await context.CallActivityAsync<string>(\"DtfActivity").data
           ++ (natToStr (i % 10)).data ++ ("\", \"data\");").data,
         ("        await context.CallActivityAsync<int>(\"DtfCalculateActivity\", i);").data] ∧
    ("        return \"completed\";").data
      ∈ linesOf (orchMethodText cn i (violationCode (generate_orchestrator_violations s).1)) ∧
    ("        return \"dtf completed\";").data
      ∈ linesOf (dtfMethodText i (violationCode (generate_orchestrator_violations s).1)) := by
  have hnl := gov_no_newline s
  have hne := gov_ne_nil s
  have hcat := gov_subset s
  have hOrch : linesOf (orchMethodText cn i (violationCode (generate_orchestrator_violations s).1))
      = orchMethodLines cn i (generate_orchestrator_violations s).1 :=
    orchMethodText_lines cn i _ hcn hnl hne
  have hDtf : linesOf (dtfMethodText i (violationCode (generate_orchestrator_violations s).1))
      = dtfMethodLines i (generate_orchestrator_violations s).1 :=
    dtfMethodText_lines i _ hnl hne
  refine ⟨assignLines_length _, fun k hk => assignLines_getD _ k hk,
    List.Nodup.map temp_name_inj (List.nodup_range _), ?_, ?_, ?_, ?_⟩
  · unfold callLinesOf
    rw [hOrch]
    exact orch_filter_call cn i _ hlt hcat
  · unfold callLinesOf
    rw [hDtf]
    exact dtf_filter_call i _ hcat
  · rw [hOrch]
    unfold orchMethodLines
    exact List.mem_append_right _ (by simp)
  · rw [hDtf]
    unfold dtfMethodLines
    exact List.mem_append_right _ (by simp)

/-- Witness for C4 at class name `"C"`, method index 0 and the empty random
stream, under which the sampled violation list is `["DateTime.Now"]`. -/
theorem claim_c4_witness :
    ('\n' ∉ ("C").data) ∧ ('<' ∉ ("C").data) ∧
    ((assignLines (generate_orchestrator_violations []).1).length
        = (generate_orchestrator_violations []).1.length ∧
     (∀ k, k < (generate_orchestrator_violations []).1.length →
       (assignLines (generate_orchestrator_violations []).1).getD k ""
         = "var temp" ++ natToStr k ++ " = "
             ++ (generate_orchestrator_violations []).1.getD k "" ++ ";") ∧
     ((List.range (generate_orchestrator_violations []).1.length).map
         (fun j => ("temp" ++ natToStr j : String))).Nodup ∧
     callLinesOf (orchMethodText "C" 0 (violationCode (generate_orchestrator_violations []).1))
       = [("        await context.CallActivityAsync<string>(\"Activity").data
            ++ (natToStr (0 % 10)).data ++ ("\", \"data\");").data,
          ("        await context.CallActivityAsync<int>(\"CalculateActivity\", i);").data] ∧
     callLinesOf (dtfMethodText 0 (violationCode (generate_orchestrator_violations []).1))
       = [("        await context.CallActivityAsync<string>(\"DtfActivity").data
            ++ (natToStr (0 % 10)).data ++ ("\", \"data\");").data,
          ("        await context.CallActivityAsync<int>(\"DtfCalculateActivity\", i);").data] ∧
     ("        return \"completed\";").data
       ∈ linesOf (orchMethodText "C" 0 (violationCode (generate_orchestrator_violations []).1)) ∧
     ("        return \"dtf completed\";").data
       ∈ linesOf (dtfMethodText 0 (violationCode (generate_orchestrator_violations []).1))) :=
  ⟨by decide, by decide, claim_c4 "C" 0 [] (by decide) (by decide)⟩

/-- C5: the 30 activity files are a constant of the generation parameters — any
two runs produce them character for character identically — every activity
method body carries the literal bounded delay call, and the value that call
yields at the generated code's runtime always lies in `[10, 100)`. -/
theorem claim_c5 (s s' : RState) (r : Nat) :
    ((mainOutput s).1.files.drop 50).take 30 = azureActFiles (List.range 30) ∧
    ((mainOutput s).1.files.drop 50).take 30 = ((mainOutput s').1.files.drop 50).take 30 ∧
    (∀ cn i, '\n' ∉ cn.data →
      ("        await Task.Delay(Random.Shared.Next(10, 100));").data
        ∈ linesOf (activityMethodText cn i)) ∧
    10 ≤ csharpNext 10 100 r ∧ csharpNext 10 100 r < 100 := by
  refine ⟨mainOutput_act_slice s,
    (mainOutput_act_slice s).trans (mainOutput_act_slice s').symm, ?_,
    by unfold csharpNext; omega, by unfold csharpNext; omega⟩
  intro cn i hcn
  have h : linesOf (activityMethodText cn i) = activityMethodLines cn i :=
    activityMethodText_lines cn i hcn
  rw [h]
  unfold activityMethodLines
  simp

/-- Witness for C5 at the empty and a one-entry random stream, activity class
name `TestActivity000`, method index 3 and runtime draw 5. -/
theorem claim_c5_witness :
    ((mainOutput []).1.files.drop 50).take 30 = azureActFiles (List.range 30) ∧
    ('\n' ∉ ("TestActivity000").data) ∧
    ("        await Task.Delay(Random.Shared.Next(10, 100));").data
      ∈ linesOf (activityMethodText "TestActivity000" 3) ∧
    10 ≤ csharpNext 10 100 5 ∧ csharpNext 10 100 5 < 100 :=
  ⟨(claim_c5 [] [0] 5).1, by decide,
   (claim_c5 [] [0] 5).2.2.1 "TestActivity000" 3 (by decide),
   (claim_c5 [] [0] 5).2.2.2.1, (claim_c5 [] [0] 5).2.2.2.2⟩

set_option maxHeartbeats 2000000 in
/-- C6: rerunning `main` with unchanged constants reproduces the same file set
and structure: the artifact names, file count, summary name, summary content
and stdout are identical across any two runs; every orchestrator-profile
file's skeleton (its content with the sampled violation lines removed) is a
constant of the index alone, hence identical across runs; the activity files
are character-for-character identical; and the violation lines — the only part
that may differ — always stay within the documented bounds (local index below
4, violation drawn from the fixed catalog). -/
theorem claim_c6 (s s' : RState) :
    (mainOutput s).1.files.map Prod.fst = (mainOutput s').1.files.map Prod.fst ∧
    (mainOutput s).1.files.length = (mainOutput s').1.files.length ∧
    (mainOutput s).1.summaryName = (mainOutput s').1.summaryName ∧
    (mainOutput s).1.summaryContent = (mainOutput s').1.summaryContent ∧
    (mainOutput s).1.stdout = (mainOutput s').1.stdout ∧
    (∀ j, j < 50 →
      skeletonOf ((mainOutput s).1.files.getD j ("", "")).2
        = azureOrchSkeleton (azureOrchNamespace j) (azureOrchClassName j) 8 ∧
      skeletonOf ((mainOutput s).1.files.getD j ("", "")).2
        = skeletonOf ((mainOutput s').1.files.getD j ("", "")).2) ∧
    (∀ j, j < 30 →
      (mainOutput s).1.files.getD (50 + j) ("", "")
        = (mainOutput s').1.files.getD (50 + j) ("", "")) ∧
    (∀ j, j < 25 →
      skeletonOf ((mainOutput s).1.files.getD (80 + j) ("", "")).2
        = dtfSkeleton (dtfNamespace j) (dtfClassName j) 6 ∧
      skeletonOf ((mainOutput s).1.files.getD (80 + j) ("", "")).2
        = skeletonOf ((mainOutput s').1.files.getD (80 + j) ("", "")).2) ∧
    (∀ j, j < 50 → ∀ l ∈ violLinesOf ((mainOutput s).1.files.getD j ("", "")).2,
      ∃ m v, m < 4 ∧ v ∈ violationsCatalog ∧
        l = ("        ").data ++ ("var temp" ++ natToStr m ++ " = " ++ v ++ ";").data) ∧
    (∀ j, j < 25 → ∀ l ∈ violLinesOf ((mainOutput s).1.files.getD (80 + j) ("", "")).2,
      ∃ m v, m < 4 ∧ v ∈ violationsCatalog ∧
        l = ("        ").data ++ ("var temp" ++ natToStr m ++ " = " ++ v ++ ";").data) := by
  have horch : ∀ t : RState, ∀ j, j < 50 →
      skeletonOf ((mainOutput t).1.files.getD j ("", "")).2
        = azureOrchSkeleton (azureOrchNamespace j) (azureOrchClassName j) 8 := by
    intro t j hj
    obtain ⟨u, hu⟩ := mainOutput_getD_orch t j hj
    rw [hu]
    exact generate_orchestrator_skeleton _ _ 8 u
      (azureOrchNamespace_not_mem j '\n' (by decide) (by decide))
      (azureOrchNamespace_not_mem j 'v' (by decide) (by decide))
      (azureOrchClassName_not_mem j '\n' (by decide) (by decide))
      (azureOrchClassName_not_mem j 'v' (by decide) (by decide))
  have hdtf : ∀ t : RState, ∀ j, j < 25 →
      skeletonOf ((mainOutput t).1.files.getD (80 + j) ("", "")).2
        = dtfSkeleton (dtfNamespace j) (dtfClassName j) 6 := by
    intro t j hj
    obtain ⟨u, hu⟩ := mainOutput_getD_dtf t j hj
    rw [hu]
    exact generate_dtf_orchestrator_skeleton _ _ 6 u
      (dtfNamespace_not_mem j '\n' (by decide) (by decide))
      (dtfNamespace_not_mem j 'v' (by decide) (by decide))
      (dtfClassName_not_mem j '\n' (by decide) (by decide))
      (dtfClassName_not_mem j 'v' (by decide) (by decide))
  refine ⟨(mainOutput_names s).trans (mainOutput_names s').symm,
    by rw [mainOutput_files_length, mainOutput_files_length],
    (mainOutput_summaryName s).trans (mainOutput_summaryName s').symm,
    (mainOutput_summaryContent s).trans (mainOutput_summaryContent s').symm,
    (mainOutput_stdout s).trans (mainOutput_stdout s').symm,
    fun j hj => ⟨horch s j hj, (horch s j hj).trans (horch s' j hj).symm⟩,
    fun j hj => by rw [mainOutput_getD_act s j hj, mainOutput_getD_act s' j hj],
    fun j hj => ⟨hdtf s j hj, (hdtf s j hj).trans (hdtf s' j hj).symm⟩,
    ?_, ?_⟩
  · intro j hj l hl
    obtain ⟨u, hu⟩ := mainOutput_getD_orch s j hj
    rw [hu] at hl
    exact generate_orchestrator_violLines _ _ 8 u
      (azureOrchNamespace_not_mem j '\n' (by decide) (by decide))
      (azureOrchNamespace_not_mem j 'v' (by decide) (by decide))
      (azureOrchClassName_not_mem j '\n' (by decide) (by decide))
      (azureOrchClassName_not_mem j 'v' (by decide) (by decide)) l hl
  · intro j hj l hl
    obtain ⟨u, hu⟩ := mainOutput_getD_dtf s j hj
    rw [hu] at hl
    exact generate_dtf_orchestrator_violLines _ _ 6 u
      (dtfNamespace_not_mem j '\n' (by decide) (by decide))
      (dtfNamespace_not_mem j 'v' (by decide) (by decide))
      (dtfClassName_not_mem j '\n' (by decide) (by decide))
      (dtfClassName_not_mem j 'v' (by decide) (by decide)) l hl

/-- Witness for C6 at the runs started from `[]` and `[0]`, instantiating the
per-file clauses at the first file of each profile. -/
theorem claim_c6_witness :
    (mainOutput []).1.files.map Prod.fst = (mainOutput [0]).1.files.map Prod.fst ∧
    skeletonOf ((mainOutput []).1.files.getD 0 ("", "")).2
      = azureOrchSkeleton (azureOrchNamespace 0) (azureOrchClassName 0) 8 ∧
    (mainOutput []).1.files.getD 50 ("", "") = (mainOutput [0]).1.files.getD 50 ("", "") ∧
    skeletonOf ((mainOutput []).1.files.getD 80 ("", "")).2
      = dtfSkeleton (dtfNamespace 0) (dtfClassName 0) 6 :=
  ⟨(claim_c6 [] [0]).1,
   ((claim_c6 [] [0]).2.2.2.2.2.1 0 (by norm_num)).1,
   (claim_c6 [] [0]).2.2.2.2.2.2.1 0 (by norm_num),
   ((claim_c6 [] [0]).2.2.2.2.2.2.2.1 0 (by norm_num)).1⟩

/-- C7: the DTF renderer is structurally identical to the Azure renderer: run
on the same index list and random stream the two method loops consume the
stream identically and sample identical violation subsets; both rendered
classes carry exactly `method_count` method signatures; for the same sampled
subset both methods carry identical violation-assignment lines and exactly two
downstream calls, differing only in the activity-name scheme, which prefixes
`Dtf` to the Azure names. -/
theorem claim_c7 (ns cn : String) (mc : Nat) (s : RState)
    (hns1 : '\n' ∉ ns.data) (hns2 : '<' ∉ ns.data)
    (hcn1 : '\n' ∉ cn.data) (hcn2 : '<' ∉ cn.data) (hcnv : 'v' ∉ cn.data) :
    (orchMethods cn (List.range mc) s).2 = (dtfMethods (List.range mc) s).2 ∧
    (orchMethods cn (List.range mc) s).1.map Prod.fst
      = (dtfMethods (List.range mc) s).1.map Prod.fst ∧
    methodSigCount (generate_orchestrator ns cn mc s).1 = mc ∧
    methodSigCount (generate_dtf_orchestrator ns cn mc s).1 = mc ∧
    (∀ i vs, (∀ v ∈ vs, v ∈ violationsCatalog) → (∀ v ∈ vs, '\n' ∉ v.data) → vs ≠ [] →
      violLinesOf (orchMethodText cn i (violationCode vs)) = regionLines vs ∧
      violLinesOf (dtfMethodText i (violationCode vs)) = regionLines vs ∧
      callLinesOf (orchMethodText cn i (violationCode vs))
        = [("        await context.CallActivityAsync<string>(\"Activity").data
             ++ (natToStr (i % 10)).data ++ ("\", \"data\");").data,
           ("        await context.CallActivityAsync<int>(\"CalculateActivity\", i);").data] ∧
      callLinesOf (dtfMethodText i (violationCode vs))
        = [("        await context.CallActivityAsync<string>(\"DtfActivity").data
             ++ (natToStr (i % 10)).data ++ ("\", \"data\");").data,
           ("        await context.CallActivityAsync<int>(\"DtfCalculateActivity\", i);").data]) ∧
    ("DtfActivity" : String) = "Dtf" ++ "Activity" ∧
    ("DtfCalculateActivity" : String) = "Dtf" ++ "CalculateActivity" := by
  refine ⟨(orchMethods_dtf_sync cn (List.range mc) s).1,
    (orchMethods_dtf_sync cn (List.range mc) s).2,
    generate_orchestrator_sigCount ns cn mc s hns1 hns2 hcn1 hcn2,
    generate_dtf_orchestrator_sigCount ns cn mc s hns1 hns2 hcn1 hcn2,
    ?_, by decide, by decide⟩
  intro i vs hcat hnl hne
  have hOrch : linesOf (orchMethodText cn i (violationCode vs)) = orchMethodLines cn i vs :=
    orchMethodText_lines cn i vs hcn1 hnl hne
  have hDtf : linesOf (dtfMethodText i (violationCode vs)) = dtfMethodLines i vs :=
    dtfMethodText_lines i vs hnl hne
  refine ⟨?_, ?_, ?_, ?_⟩
  · unfold violLinesOf
    rw [hOrch]
    exact orch_filter_varTemp cn i vs hcnv
  · unfold violLinesOf
    rw [hDtf]
    exact dtf_filter_varTemp i vs
  · unfold callLinesOf
    rw [hOrch]
    exact orch_filter_call cn i vs hcn2 hcat
  · unfold callLinesOf
    rw [hDtf]
    exact dtf_filter_call i vs hcat

/-- Witness for C7 at namespace `"N"`, class name `"C"`, one method, the empty
random stream and the one-element subset `["DateTime.Now"]`. -/
theorem claim_c7_witness :
    (orchMethods "C" (List.range 1) []).2 = (dtfMethods (List.range 1) []).2 ∧
    methodSigCount (generate_orchestrator "N" "C" 1 []).1 = 1 ∧
    methodSigCount (generate_dtf_orchestrator "N" "C" 1 []).1 = 1 ∧
    violLinesOf (orchMethodText "C" 0 (violationCode ["DateTime.Now"]))
      = regionLines ["DateTime.Now"] ∧
    violLinesOf (dtfMethodText 0 (violationCode ["DateTime.Now"]))
      = regionLines ["DateTime.Now"] :=
  ⟨(claim_c7 "N" "C" 1 [] (by decide) (by decide) (by decide) (by decide) (by decide)).1,
   (claim_c7 "N" "C" 1 [] (by decide) (by decide) (by decide) (by decide) (by decide)).2.2.1,
   (claim_c7 "N" "C" 1 [] (by decide) (by decide) (by decide) (by decide) (by decide)).2.2.2.1,
   ((claim_c7 "N" "C" 1 [] (by decide) (by decide) (by decide) (by decide) (by decide)).2.2.2.2.1
      0 ["DateTime.Now"] (by decide) (by decide) (by decide)).1,
   ((claim_c7 "N" "C" 1 [] (by decide) (by decide) (by decide) (by decide) (by decide)).2.2.2.2.1
      0 ["DateTime.Now"] (by decide) (by decide) (by decide)).2.1⟩

/-- C8 is corrected: every artifact name carries the `.cs` extension, so the
first written name is `Azure_Orchestrator_000.cs`, not the extensionless
`Azure_Orchestrator_000` the specification gives. -/
theorem claim_c8_counterexample :
    ((mainOutput []).1.files.map Prod.fst).getD 0 "" = "Azure_Orchestrator_000.cs" ∧
    "Azure_Orchestrator_000.cs" ≠ ("Azure_Orchestrator_000" : String) := by
  constructor
  · rw [mainOutput_names]
    decide
  · decide

/-- C8 (amended): every generated class goes to exactly one text artifact whose
name is its profile prefix, a zero-padded 3-digit index and the `.cs`
extension — `Azure_Orchestrator_000.cs` through `Azure_Orchestrator_049.cs`,
`Azure_Activity_000.cs` through `Azure_Activity_029.cs`,
`DTF_Orchestrator_000.cs` through `DTF_Orchestrator_024.cs` — the 105 names are
pairwise distinct, the summary artifact is `CodebaseSummary.txt`, and every
written path is the output directory joined with one of these names. -/
theorem claim_c8_amended (dir : String) (s : RState) :
    (mainOutput s).1.files.map Prod.fst
      = (List.range 50).map azureOrchFileName ++ (List.range 30).map azureActFileName
        ++ (List.range 25).map dtfFileName ∧
    ((mainOutput s).1.files.map Prod.fst).getD 0 "" = "Azure_Orchestrator_000.cs" ∧
    ((mainOutput s).1.files.map Prod.fst).getD 49 "" = "Azure_Orchestrator_049.cs" ∧
    ((mainOutput s).1.files.map Prod.fst).getD 50 "" = "Azure_Activity_000.cs" ∧
    ((mainOutput s).1.files.map Prod.fst).getD 79 "" = "Azure_Activity_029.cs" ∧
    ((mainOutput s).1.files.map Prod.fst).getD 80 "" = "DTF_Orchestrator_000.cs" ∧
    ((mainOutput s).1.files.map Prod.fst).getD 104 "" = "DTF_Orchestrator_024.cs" ∧
    ((mainOutput s).1.files.map Prod.fst).Nodup ∧
    (mainOutput s).1.summaryName = "CodebaseSummary.txt" ∧
    writtenPaths dir s
      = ((mainOutput s).1.files.map Prod.fst ++ ["CodebaseSummary.txt"]).map (pathJoin dir) := by
  refine ⟨mainOutput_names s, ?_, ?_, ?_, ?_, ?_, ?_, ?_, mainOutput_summaryName s, ?_⟩
  · rw [mainOutput_names]; decide
  · rw [mainOutput_names]; decide
  · rw [mainOutput_names]; decide
  · rw [mainOutput_names]; decide
  · rw [mainOutput_names]; decide
  · rw [mainOutput_names]; decide
  · rw [mainOutput_names]; decide
  · unfold writtenPaths
    rw [mainOutput_summaryName]

/-- C9: `generate_activity` draws no randomness at generation time: the
activity loop of `main` passes the random stream through untouched, the
activity files are character-for-character identical across runs, and the only
reference to randomness in the output is the fixed literal
`Random.Shared.Next(10, 100)` delay call, exactly once per method, whose value
at the generated code's own runtime lies in `[10, 100)`. -/
theorem claim_c9 (s s' : RState) (ns cn : String) (mc : Nat)
    (hns1 : '\n' ∉ ns.data) (hnsR : 'R' ∉ ns.data)
    (hcn1 : '\n' ∉ cn.data) (hcnR : 'R' ∉ cn.data) :
    (mainOutput s).2 = (dtfFiles (List.range 25) (azureOrchFiles (List.range 50) s).2).2 ∧
    ((mainOutput s).1.files.drop 50).take 30 = ((mainOutput s').1.files.drop 50).take 30 ∧
    randomLinesOf (generate_activity ns cn mc)
      = List.replicate mc (("        await Task.Delay(Random.Shared.Next(10, 100));").data) ∧
    (∀ i, i < 30 →
      randomLinesOf ((mainOutput s).1.files.getD (50 + i) ("", "")).2
        = List.replicate 5 (("        await Task.Delay(Random.Shared.Next(10, 100));").data)) ∧
    (∀ r, 10 ≤ csharpNext 10 100 r ∧ csharpNext 10 100 r < 100) := by
  refine ⟨mainOutput_state s, (mainOutput_act_slice s).trans (mainOutput_act_slice s').symm,
    generate_activity_randomLines ns cn mc hns1 hnsR hcn1 hcnR, ?_,
    fun r => by unfold csharpNext; omega⟩
  intro i hi
  rw [mainOutput_getD_act s i hi]
  exact generate_activity_randomLines _ _ 5
    (azureActNamespace_not_mem i '\n' (by decide) (by decide))
    (azureActNamespace_not_mem i 'R' (by decide) (by decide))
    (azureActClassName_not_mem i '\n' (by decide) (by decide))
    (azureActClassName_not_mem i 'R' (by decide) (by decide))

/-- Witness for C9 at two empty random streams, namespace `"N"`, class name
`"C"`, one method, the first activity file of the run and runtime draw 7. -/
theorem claim_c9_witness :
    (mainOutput []).2 = (dtfFiles (List.range 25) (azureOrchFiles (List.range 50) []).2).2 ∧
    randomLinesOf (generate_activity "N" "C" 1)
      = List.replicate 1 (("        await Task.Delay(Random.Shared.Next(10, 100));").data) ∧
    randomLinesOf ((mainOutput []).1.files.getD (50 + 0) ("", "")).2
      = List.replicate 5 (("        await Task.Delay(Random.Shared.Next(10, 100));").data) ∧
    (10 ≤ csharpNext 10 100 7 ∧ csharpNext 10 100 7 < 100) :=
  ⟨(claim_c9 [] [] "N" "C" 1 (by decide) (by decide) (by decide) (by decide)).1,
   (claim_c9 [] [] "N" "C" 1 (by decide) (by decide) (by decide) (by decide)).2.2.1,
   (claim_c9 [] [] "N" "C" 1 (by decide) (by decide) (by decide) (by decide)).2.2.2.1
     0 (by norm_num),
   (claim_c9 [] [] "N" "C" 1 (by decide) (by decide) (by decide) (by decide)).2.2.2.2 7⟩

set_option maxHeartbeats 4000000 in
/-- C10: the i-th class of each profile lives in a namespace whose batch suffix
is `i / 10` (`Performance.Azure.Batch{i/10}`,
`Performance.Azure.Activities.Batch{i/10}`, `Performance.DTF.Batch{i/10}`),
its namespace line appears in the written file, and within each profile the
indices sharing one batch suffix form a run of at most 10 consecutive
indices. -/
theorem claim_c10 (s : RState) (i : Nat) :
    (i < 50 → azureOrchNamespace i = "Performance.Azure.Batch" ++ natToStr (i / 10) ∧
      ("namespace ").data ++ (azureOrchNamespace i).data
        ∈ linesOf ((mainOutput s).1.files.getD i ("", "")).2) ∧
    (i < 30 → azureActNamespace i = "Performance.Azure.Activities.Batch" ++ natToStr (i / 10) ∧
      ("namespace ").data ++ (azureActNamespace i).data
        ∈ linesOf ((mainOutput s).1.files.getD (50 + i) ("", "")).2) ∧
    (i < 25 → dtfNamespace i = "Performance.DTF.Batch" ++ natToStr (i / 10) ∧
      ("namespace ").data ++ (dtfNamespace i).data
        ∈ linesOf ((mainOutput s).1.files.getD (80 + i) ("", "")).2) ∧
    (∀ b, (List.range 50).filter (fun j => j / 10 == b)
        = if b < 5 then List.range' (10 * b) 10 else []) ∧
    (∀ b, (List.range 30).filter (fun j => j / 10 == b)
        = if b < 3 then List.range' (10 * b) 10 else []) ∧
    (∀ b, (List.range 25).filter (fun j => j / 10 == b)
        = if b < 2 then List.range' (10 * b) 10
          else if b = 2 then List.range' 20 5 else []) ∧
    (∀ b, ((List.range 50).filter (fun j => j / 10 == b)).length ≤ 10) ∧
    (∀ b, ((List.range 30).filter (fun j => j / 10 == b)).length ≤ 10) ∧
    (∀ b, ((List.range 25).filter (fun j => j / 10 == b)).length ≤ 10) := by
  have h50 : ∀ b : Nat, (List.range 50).filter (fun j => j / 10 == b)
      = if b < 5 then List.range' (10 * b) 10 else [] := by
    intro b
    by_cases hb : b < 5
    · rw [if_pos hb]
      interval_cases b <;> decide
    · rw [if_neg hb, List.filter_eq_nil_iff]
      intro a ha
      simp only [List.mem_range] at ha
      simp only [beq_iff_eq]
      omega
  have h30 : ∀ b : Nat, (List.range 30).filter (fun j => j / 10 == b)
      = if b < 3 then List.range' (10 * b) 10 else [] := by
    intro b
    by_cases hb : b < 3
    · rw [if_pos hb]
      interval_cases b <;> decide
    · rw [if_neg hb, List.filter_eq_nil_iff]
      intro a ha
      simp only [List.mem_range] at ha
      simp only [beq_iff_eq]
      omega
  have h25 : ∀ b : Nat, (List.range 25).filter (fun j => j / 10 == b)
      = if b < 2 then List.range' (10 * b) 10
        else if b = 2 then List.range' 20 5 else [] := by
    intro b
    by_cases hb : b < 2
    · rw [if_pos hb]
      interval_cases b <;> decide
    · rw [if_neg hb]
      by_cases hb2 : b = 2
      · rw [if_pos hb2, hb2]
        decide
      · rw [if_neg hb2, List.filter_eq_nil_iff]
        intro a ha
        simp only [List.mem_range] at ha
        simp only [beq_iff_eq]
        omega
  refine ⟨?_, ?_, ?_, h50, h30, h25,
    fun b => by rw [h50 b]; split <;> simp,
    fun b => by rw [h30 b]; split <;> simp,
    fun b => by rw [h25 b]; split <;> first | simp | (split <;> simp)⟩
  · intro hi
    refine ⟨rfl, ?_⟩
    obtain ⟨u, hu⟩ := mainOutput_getD_orch s i hi
    rw [hu]
    exact generate_orchestrator_ns_line (azureOrchNamespace i) (azureOrchClassName i) 8 u
      (azureOrchNamespace_not_mem i '\n' (by decide) (by decide))
      (azureOrchClassName_not_mem i '\n' (by decide) (by decide))
  · intro hi
    refine ⟨rfl, ?_⟩
    rw [mainOutput_getD_act s i hi]
    exact generate_activity_ns_line (azureActNamespace i) (azureActClassName i) 5
      (azureActNamespace_not_mem i '\n' (by decide) (by decide))
      (azureActClassName_not_mem i '\n' (by decide) (by decide))
  · intro hi
    refine ⟨rfl, ?_⟩
    obtain ⟨u, hu⟩ := mainOutput_getD_dtf s i hi
    rw [hu]
    exact generate_dtf_orchestrator_ns_line (dtfNamespace i) (dtfClassName i) 6 u
      (dtfNamespace_not_mem i '\n' (by decide) (by decide))
      (dtfClassName_not_mem i '\n' (by decide) (by decide))

/-- Witness for C10 at the empty stream and index 0, plus batch clauses at
concrete suffixes. -/
theorem claim_c10_witness :
    (azureOrchNamespace 0 = "Performance.Azure.Batch" ++ natToStr (0 / 10) ∧
      ("namespace ").data ++ (azureOrchNamespace 0).data
        ∈ linesOf ((mainOutput []).1.files.getD 0 ("", "")).2) ∧
    ((List.range 50).filter (fun j => j / 10 == 3)
      = if 3 < 5 then List.range' (10 * 3) 10 else []) ∧
    ((List.range 25).filter (fun j => j / 10 == 2)).length ≤ 10 :=
  ⟨(claim_c10 [] 0).1 (by norm_num),
   (claim_c10 [] 0).2.2.2.1 3,
   (claim_c10 [] 0).2.2.2.2.2.2.2.2 2⟩
